import Mathlib

/-!
# Verification of the MindSimWeb contained-particle simulation core

A shallow embedding of the physics simulation that appears twice in the
repository: the hierarchical `Mind`/`Mental` object model
(`src/client/src/mindwebsite/classes/Mind.ts`,
`src/client/src/mindwebsite/classes/AbstractMental.ts`) and the standalone
container+balls demo (`mentalFormationDemo` / `SamskaraDemo`).

JavaScript float arithmetic is idealized as exact real arithmetic, and the
global `Math.random()` is modelled as a deterministic stream `ℕ → ℝ` with an
explicit cursor threaded through each call site in source order.  Rendering
state (meshes, materials, labels) is omitted; the embedding assumes the mesh
exists, so the early-return guards on a missing mesh are never taken.
-/

/-- 3D vector with real components, modelling the plain `{x, y, z}` records
and `THREE.Vector3` values used by the simulation code. -/
@[ext]
structure Vec3 where
  x : ℝ
  y : ℝ
  z : ℝ

namespace Vec3

/-- Componentwise sum. -/
def add (a b : Vec3) : Vec3 := ⟨a.x + b.x, a.y + b.y, a.z + b.z⟩

/-- Componentwise difference `a - b`. -/
def sub (a b : Vec3) : Vec3 := ⟨a.x - b.x, a.y - b.y, a.z - b.z⟩

/-- Scalar multiple (`multiplyScalar` / the componentwise `* s` patterns). -/
def smul (c : ℝ) (v : Vec3) : Vec3 := ⟨c * v.x, c * v.y, c * v.z⟩

/-- Dot product. -/
def dot (a b : Vec3) : ℝ := a.x * b.x + a.y * b.y + a.z * b.z

/-- Euclidean length: `Math.sqrt(x*x + y*y + z*z)` / `Vector3.length()`. -/
noncomputable def len (v : Vec3) : ℝ := Real.sqrt (v.x * v.x + v.y * v.y + v.z * v.z)

/-- The zero vector. -/
def zero : Vec3 := ⟨0, 0, 0⟩

end Vec3

/-- Physics state of one `Mental` sphere: the `position`, `velocity`,
`radius` and `motionSpeed` fields of `AbstractMental`.  (`radius` is kept in
local space, as in the source; `getRadius()` returns it unchanged.) -/
@[ext]
structure Mental where
  position : Vec3
  velocity : Vec3
  radius : ℝ
  motionSpeed : ℝ

/-- Deterministic stand-in for the successive results of `Math.random()`;
each call site consumes the next index of the stream. -/
abbrev RandStream := ℕ → ℝ

/-- `AbstractMental.normalizeVelocityToMotionSpeed` (AbstractMental.ts:182-201):
rescale a nonzero velocity to magnitude `motionSpeed`; leave a zero velocity
alone when `motionSpeed` is `0`; otherwise re-seed a random direction
(`theta = rand*π*2`, `phi = acos(rand*2-1)`) scaled by `motionSpeed`.
Returns the updated mental and the next unused random index. -/
noncomputable def normalizeVelocityToMotionSpeed (m : Mental) (rs : RandStream) (k : ℕ) :
    Mental × ℕ :=
  let mag := Vec3.len m.velocity
  if 0 < mag then
    ({ m with velocity := Vec3.smul (m.motionSpeed / mag) m.velocity }, k)
  else if m.motionSpeed = 0 then
    (m, k)
  else
    let theta := rs k * Real.pi * 2
    let phi := Real.arccos (rs (k + 1) * 2 - 1)
    ({ m with velocity :=
        ⟨m.motionSpeed * Real.sin phi * Real.cos theta,
         m.motionSpeed * Real.sin phi * Real.sin theta,
         m.motionSpeed * Real.cos phi⟩ }, k + 2)

/-- `Mind.constrainMentalPosition` (Mind.ts:33-81).  `scale` is the Mind's
scale factor; `getRadius()` of the Mind is `1 * scale`.  World-space distance
is computed from the scaled local position; when out of range (or exactly at
the center) the position is clamped to
`maxDistance = max(mentalRadius + 0.005, mindRadius - mentalRadius - 0.01)`
along the local normal, or randomly re-placed near the center. -/
noncomputable def constrainMentalPosition (scale : ℝ) (m : Mental) (rs : RandStream) (k : ℕ) :
    Mental × ℕ :=
  let mindRadius := scale
  let mentalRadius := m.radius * scale
  let maxDistance := max (mentalRadius + 0.005) (mindRadius - mentalRadius - 0.01)
  let p := m.position
  let distance := Vec3.len ⟨p.x * scale, p.y * scale, p.z * scale⟩
  if maxDistance < distance ∨ distance = 0 then
    if 0 < distance then
      let localDistance := Vec3.len p
      let nx := if 0 < localDistance then p.x / localDistance else 1
      let ny := if 0 < localDistance then p.y / localDistance else 0
      let nz := if 0 < localDistance then p.z / localDistance else 0
      let localMaxDistance := maxDistance / scale
      ({ m with position :=
          ⟨nx * localMaxDistance, ny * localMaxDistance, nz * localMaxDistance⟩ }, k)
    else
      let localMaxDistance := maxDistance / scale
      let randomRadius := rs k * localMaxDistance * 0.3
      let theta := rs (k + 1) * Real.pi * 2
      let phi := Real.arccos (rs (k + 2) * 2 - 1)
      ({ m with position :=
          ⟨randomRadius * Real.sin phi * Real.cos theta,
           randomRadius * Real.sin phi * Real.sin theta,
           randomRadius * Real.cos phi⟩ }, k + 3)
  else
    (m, k)

/-- Post-impulse velocity of the first body in `Mind.handleCollision`
(Mind.ts:153-161): `newVel1 = vel1 + impulse * normal` where
`impulse = dotProduct * (1 + bounceStrength)` and `bounceStrength = 0.9`. -/
def mindImpulseVel1 (vel1 n : Vec3) (dotProduct : ℝ) : Vec3 :=
  Vec3.add vel1 (Vec3.smul (dotProduct * (1 + 0.9)) n)

/-- Post-impulse velocity of the second body in `Mind.handleCollision`
(Mind.ts:163-165): `newVel2 = vel2 - impulse * normal`. -/
def mindImpulseVel2 (vel2 n : Vec3) (dotProduct : ℝ) : Vec3 :=
  Vec3.sub vel2 (Vec3.smul (dotProduct * (1 + 0.9)) n)

/-- `Mind.handleCollision` (Mind.ts:88-175): when the two mentals overlap
with positive center distance, separate them symmetrically by half the
overlap each (`separation = (delta/d) * overlap * 0.5`), then, if they are
approaching, apply the impulse of `mindImpulseVel1`/`mindImpulseVel2` and
re-normalize both velocities to their motion speeds. -/
noncomputable def handleCollision (m1 m2 : Mental) (rs : RandStream) (k : ℕ) :
    Mental × Mental × ℕ :=
  let pos1 := m1.position
  let pos2 := m2.position
  let vel1 := m1.velocity
  let vel2 := m2.velocity
  let delta := Vec3.sub pos2 pos1
  let distance := Vec3.len delta
  let minDistance := m1.radius + m2.radius
  if distance < minDistance ∧ 0 < distance then
    let overlap := minDistance - distance
    let separation := Vec3.smul (overlap * 0.5 / distance) delta
    let m1a := { m1 with position := Vec3.sub pos1 separation }
    let m2a := { m2 with position := Vec3.add pos2 separation }
    let n := Vec3.smul (1 / distance) delta
    let rel := Vec3.sub vel2 vel1
    let dotProduct := Vec3.dot rel n
    if dotProduct < 0 then
      let m1b := { m1a with velocity := mindImpulseVel1 vel1 n dotProduct }
      let m2b := { m2a with velocity := mindImpulseVel2 vel2 n dotProduct }
      let r1 := normalizeVelocityToMotionSpeed m1b rs k
      let r2 := normalizeVelocityToMotionSpeed m2b rs r1.2
      (r1.1, r2.1, r2.2)
    else
      (m1a, m2a, k)
  else
    (m1, m2, k)

/-- `Mind.handleBoundaryCollision` (Mind.ts:181-240): when the mental's
world distance reaches `maxDistance = mindRadius - mentalRadius - 0.01`, the
position is clamped to the limit along the local normal; an outward velocity
(`dotProduct > 0`) is reflected with `bounceStrength = 0.95`, otherwise the
velocity is replaced by its tangential component
(`velocity - dotProduct * normal`); finally the speed is re-normalized. -/
noncomputable def handleBoundaryCollision (scale : ℝ) (m : Mental) (rs : RandStream) (k : ℕ) :
    Mental × ℕ :=
  let mindRadius := scale
  let mentalRadius := m.radius * scale
  let maxDistance := mindRadius - mentalRadius - 0.01
  let p := m.position
  let distance := Vec3.len ⟨p.x * scale, p.y * scale, p.z * scale⟩
  if maxDistance ≤ distance then
    let localDistance := Vec3.len p
    let nx := if 0 < localDistance then p.x / localDistance else 1
    let ny := if 0 < localDistance then p.y / localDistance else 0
    let nz := if 0 < localDistance then p.z / localDistance else 0
    let n : Vec3 := ⟨nx, ny, nz⟩
    let localMaxDistance := maxDistance / scale
    let m1 := { m with position :=
        ⟨nx * localMaxDistance, ny * localMaxDistance, nz * localMaxDistance⟩ }
    let velocity := m1.velocity
    let dotProduct := Vec3.dot velocity n
    let m2 :=
      if 0 < dotProduct then
        { m1 with velocity := Vec3.sub velocity (Vec3.smul ((1 + 0.95) * dotProduct) n) }
      else
        { m1 with velocity := Vec3.sub velocity (Vec3.smul dotProduct n) }
    normalizeVelocityToMotionSpeed m2 rs k
  else
    (m, k)

/-- Candidate position of the integration phase:
`next = position + velocity * speedMultiplier`, componentwise
(Mind.ts:265-267). -/
def integratePos (speedMultiplier : ℝ) (position velocity : Vec3) : Vec3 :=
  ⟨position.x + velocity.x * speedMultiplier,
   position.y + velocity.y * speedMultiplier,
   position.z + velocity.z * speedMultiplier⟩

/-- Per-mental body of the first `forEach` in `Mind.updatePhysics`
(Mind.ts:253-307): normalize the speed, integrate with
`speedMultiplier = deltaTime * 60`, and apply the boundary check to the
candidate position: if it lies beyond `maxDistance`, reflect an outward
velocity (normal taken from the *candidate* position), re-normalize the
speed, and clamp the position to the limit along that normal. -/
noncomputable def integrateMental (scale deltaTime : ℝ) (m : Mental) (rs : RandStream) (k : ℕ) :
    Mental × ℕ :=
  let mindRadius := scale
  let speedMultiplier := deltaTime * 60
  let r0 := normalizeVelocityToMotionSpeed m rs k
  let m0 := r0.1
  let position := m0.position
  let velocity := m0.velocity
  let mentalRadius := m0.radius * scale
  let maxDistance := mindRadius - mentalRadius - 0.01
  let next := integratePos speedMultiplier position velocity
  let nextDistance := Vec3.len ⟨next.x * scale, next.y * scale, next.z * scale⟩
  if maxDistance < nextDistance then
    let nextLocalDistance := Vec3.len next
    let nx := if 0 < nextLocalDistance then next.x / nextLocalDistance else 1
    let ny := if 0 < nextLocalDistance then next.y / nextLocalDistance else 0
    let nz := if 0 < nextLocalDistance then next.z / nextLocalDistance else 0
    let dotProduct := velocity.x * nx + velocity.y * ny + velocity.z * nz
    let m1 :=
      if 0 < dotProduct then
        { m0 with velocity :=
            ⟨velocity.x - (1 + 0.95) * dotProduct * nx,
             velocity.y - (1 + 0.95) * dotProduct * ny,
             velocity.z - (1 + 0.95) * dotProduct * nz⟩ }
      else m0
    let r1 := normalizeVelocityToMotionSpeed m1 rs r0.2
    let localMaxDistance := maxDistance / scale
    ({ r1.1 with position := ⟨nx * localMaxDistance, ny * localMaxDistance, nz * localMaxDistance⟩ },
      r1.2)
  else
    ({ m0 with position := next }, r0.2)

/-- Sequentially maps a cursor-threading update over a list, mirroring a
`forEach` over `this.mentals` with the shared `Math.random` cursor passed
along in iteration order. -/
def statefulMap {α : Type} (f : α → ℕ → α × ℕ) : List α → ℕ → List α × ℕ
  | [], k => ([], k)
  | a :: as, k =>
    let ak := f a k
    let ask := statefulMap f as ak.2
    (ak.1 :: ask.1, ask.2)

/-- Index pairs `(i, j)` with `i < j < n`, in the order of the nested
`for` loops of `Mind.updatePhysics` (Mind.ts:310-314) and the demo `step`. -/
def pairIndices (n : ℕ) : List (ℕ × ℕ) :=
  (List.range n).flatMap fun i => ((List.range n).filter fun j => i < j).map fun j => (i, j)

/-- The pairwise-collision phase of `Mind.updatePhysics` (Mind.ts:310-314):
fold `handleCollision` over all index pairs in loop order, updating the
list in place. -/
noncomputable def collisionPhase (ms : List Mental) (rs : RandStream) (k : ℕ) :
    List Mental × ℕ :=
  (pairIndices ms.length).foldl
    (fun st ij =>
      match st.1[ij.1]?, st.1[ij.2]? with
      | some a, some b =>
        let r := handleCollision a b rs st.2
        ((st.1.set ij.1 r.1).set ij.2 r.2.1, r.2.2)
      | _, _ => st)
    (ms, k)

/-- `Mind.updatePhysics` (Mind.ts:246-322), assuming the mind mesh exists:
phase 1 integrates every mental with boundary prediction, phase 2 resolves
all pairwise collisions, phase 3 re-constrains every mental inside the
boundary and re-normalizes its speed. -/
noncomputable def updatePhysics (scale deltaTime : ℝ) (ms : List Mental) (rs : RandStream)
    (k : ℕ) : List Mental × ℕ :=
  let phase1 := statefulMap (fun m k => integrateMental scale deltaTime m rs k) ms k
  let phase2 := collisionPhase phase1.1 rs phase1.2
  statefulMap
    (fun m k =>
      let c := constrainMentalPosition scale m rs k
      normalizeVelocityToMotionSpeed c.1 rs c.2)
    phase2.1 phase2.2

/-- `Mind.addMental` (Mind.ts:328-346) for a mental not already contained
(JS `includes` compares object references, so a fresh mental is never
already present): push it, then constrain its position in place, so the
stored entry is the constrained one. -/
noncomputable def addMental (scale : ℝ) (ms : List Mental) (m : Mental) (rs : RandStream)
    (k : ℕ) : List Mental × ℕ :=
  let c := constrainMentalPosition scale m rs k
  (ms ++ [c.1], c.2)

/-- `THREE.Vector3.normalize()`: divides by `length() || 1`, so the zero
vector is left unchanged (JS `0` is falsy) rather than producing a division
by zero. -/
noncomputable def threeNormalize (v : Vec3) : Vec3 :=
  if Vec3.len v = 0 then v else Vec3.smul (1 / Vec3.len v) v

/-- `reflectVelocity` of the standalone demo (mentalFormationDemo):
`v' = v - (1 + e) * (v·n) * n`. -/
noncomputable def reflectVelocity (vel normal : Vec3) (restitution : ℝ) : Vec3 :=
  Vec3.sub vel (Vec3.smul ((1 + restitution) * Vec3.dot vel normal) normal)

/-- State of one ball of the standalone demo: mesh position and velocity
(the ball radius is the shared constant `demoBallRadius`). -/
@[ext]
structure Ball where
  pos : Vec3
  vel : Vec3

/-- Demo constant: `containerRadius = 0.9`. -/
def demoContainerRadius : ℝ := 0.9

/-- Demo constant: `ballRadius = 0.06`. -/
def demoBallRadius : ℝ := 0.06

/-- Demo constant: `damping = 1.0` (no energy loss). -/
def demoDamping : ℝ := 1.0

/-- Demo constant: `restitution = 1.0` (elastic). -/
def demoRestitution : ℝ := 1.0

/-- Demo constant: `maxSpeed = 1.2`. -/
def demoMaxSpeed : ℝ := 1.2

/-- Demo constant: `minSpeed = 0.22`. -/
def demoMinSpeed : ℝ := 0.22

/-- The speed-clamp prologue of the demo's per-ball update: apply damping,
clamp the speed to `maxSpeed` if exceeded, and if the (pre-clamp) speed is
below `minSpeed`, replace the velocity by a random direction
(`tmp.set(rand*2-1, rand*2-1, rand*2-1).normalize()`) scaled to `minSpeed`. -/
noncomputable def demoClampSpeed (vel : Vec3) (rs : RandStream) (k : ℕ) : Vec3 × ℕ :=
  let vel0 := Vec3.smul demoDamping vel
  let sp := Vec3.len vel0
  let vel1 := if demoMaxSpeed < sp then Vec3.smul (demoMaxSpeed / sp) vel0 else vel0
  if sp < demoMinSpeed then
    let tmp : Vec3 := ⟨rs k * 2 - 1, rs (k + 1) * 2 - 1, rs (k + 2) * 2 - 1⟩
    (Vec3.smul demoMinSpeed (threeNormalize tmp), k + 3)
  else
    (vel1, k)

/-- The per-ball body of the demo `step` (mentalFormationDemo, the
`for (const b of balls)` loop): clamp the speed, integrate
`position += vel * dt`, and collide with the container wall: beyond
`limit = containerRadius - ballRadius` the position is pushed back to the
surface, an outward velocity is reflected, and a nearly-tangential or
inward-but-slow velocity receives an inward nudge of `-0.12 * normal`. -/
noncomputable def demoBallUpdate (dt : ℝ) (b : Ball) (rs : RandStream) (k : ℕ) : Ball × ℕ :=
  let c := demoClampSpeed b.vel rs k
  let vel := c.1
  let pos := Vec3.add b.pos (Vec3.smul dt vel)
  let dist := Vec3.len pos
  let limit := demoContainerRadius - demoBallRadius
  if limit < dist then
    let normal := threeNormalize pos
    let pos1 := Vec3.smul limit normal
    let vn := Vec3.dot vel normal
    let vel1 := if 0 < vn then reflectVelocity vel normal demoRestitution else vel
    let vel2 := if -0.08 < Vec3.dot vel1 normal then Vec3.add vel1 (Vec3.smul (-0.12) normal)
      else vel1
    (⟨pos1, vel2⟩, c.2)
  else
    (⟨pos, vel⟩, c.2)

/-- The ball-ball collision body of the demo `step` (equal mass,
restitution `demoRestitution`): when `0 < d < minD = ballRadius * 2`,
separate the balls by half the overlap each and, if approaching
(`rel · n < 0`), apply the impulse
`n * (-0.5 * (1 + restitution) * reln)` with opposite signs. -/
noncomputable def demoPairCollide (a b : Ball) : Ball × Ball :=
  let tmp := Vec3.sub b.pos a.pos
  let d := Vec3.len tmp
  let minD := demoBallRadius * 2
  if 0 < d ∧ d < minD then
    let n := Vec3.smul (1 / d) tmp
    let push := (minD - d) * 0.5
    let a1 : Ball := ⟨Vec3.add a.pos (Vec3.smul (-push) n), a.vel⟩
    let b1 : Ball := ⟨Vec3.add b.pos (Vec3.smul push n), b.vel⟩
    let rel := Vec3.sub b1.vel a1.vel
    let reln := Vec3.dot rel n
    if reln < 0 then
      let impulse := Vec3.smul (-0.5 * (1 + demoRestitution) * reln) n
      (⟨a1.pos, Vec3.add a1.vel (Vec3.smul (-1) impulse)⟩,
       ⟨b1.pos, Vec3.add b1.vel impulse⟩)
    else
      (a1, b1)
  else
    (a, b)

/-- The pair loop of the demo `step`: all index pairs `i < j` in loop
order, updating the ball list in place. -/
noncomputable def demoCollisionPhase (balls : List Ball) : List Ball :=
  (pairIndices balls.length).foldl
    (fun bs ij =>
      match bs[ij.1]?, bs[ij.2]? with
      | some a, some b =>
        let r := demoPairCollide a b
        (bs.set ij.1 r.1).set ij.2 r.2
      | _, _ => bs)
    balls

/-- One frame of the demo `step(t)`: `dt = min(elapsed, 0.033)` seconds
(`elapsed = (t - lastT)/1000` is supplied by the host), then the per-ball
updates followed by the pairwise collisions. -/
noncomputable def demoStep (elapsed : ℝ) (balls : List Ball) (rs : RandStream) (k : ℕ) :
    List Ball × ℕ :=
  let dt := min elapsed 0.033
  let phase1 := statefulMap (fun b k => demoBallUpdate dt b rs k) balls k
  (demoCollisionPhase phase1.1, phase1.2)

/-! ## Basic facts about `Vec3.len` -/

/-- Evaluate a square root at a perfect square. -/
lemma sqrtVal {a b : ℝ} (hb : 0 ≤ b) (h : b * b = a) : Real.sqrt a = b := by
  rw [← h]
  exact Real.sqrt_mul_self hb

/-- Evaluate `Vec3.len` on explicit components. -/
lemma lenEval (a b c d : ℝ) (hd : 0 ≤ d) (h : d * d = a * a + b * b + c * c) :
    Vec3.len ⟨a, b, c⟩ = d := by
  unfold Vec3.len
  exact sqrtVal hd h

/-- Bound `Vec3.len` on explicit components. -/
lemma lenLe (a b c d : ℝ) (hd : 0 ≤ d) (h : a * a + b * b + c * c ≤ d * d) :
    Vec3.len ⟨a, b, c⟩ ≤ d := by
  unfold Vec3.len
  calc Real.sqrt (a * a + b * b + c * c) ≤ Real.sqrt (d * d) := Real.sqrt_le_sqrt h
    _ = d := Real.sqrt_mul_self hd

lemma len_nonneg (v : Vec3) : 0 ≤ Vec3.len v := Real.sqrt_nonneg _

lemma len_zero : Vec3.len ⟨0, 0, 0⟩ = 0 := lenEval 0 0 0 0 le_rfl (by norm_num)

lemma len_eq_zero {v : Vec3} (h : Vec3.len v = 0) : v = ⟨0, 0, 0⟩ := by
  unfold Vec3.len at h
  have hle : v.x * v.x + v.y * v.y + v.z * v.z ≤ 0 := Real.sqrt_eq_zero'.mp h
  have hx : v.x * v.x = 0 :=
    le_antisymm (by nlinarith [mul_self_nonneg v.y, mul_self_nonneg v.z]) (mul_self_nonneg v.x)
  have hy : v.y * v.y = 0 :=
    le_antisymm (by nlinarith [mul_self_nonneg v.x, mul_self_nonneg v.z]) (mul_self_nonneg v.y)
  have hz : v.z * v.z = 0 :=
    le_antisymm (by nlinarith [mul_self_nonneg v.x, mul_self_nonneg v.y]) (mul_self_nonneg v.z)
  exact Vec3.ext (mul_self_eq_zero.mp hx) (mul_self_eq_zero.mp hy) (mul_self_eq_zero.mp hz)

lemma len_smul (c : ℝ) (v : Vec3) : Vec3.len (Vec3.smul c v) = |c| * Vec3.len v := by
  unfold Vec3.len Vec3.smul
  rw [show c * v.x * (c * v.x) + c * v.y * (c * v.y) + c * v.z * (c * v.z) =
      c * c * (v.x * v.x + v.y * v.y + v.z * v.z) by ring]
  rw [Real.sqrt_mul (mul_self_nonneg c), Real.sqrt_mul_self_eq_abs]

/-- Length of componentwise right-multiplication by a scalar. -/
lemma len_mul_right (a b c s : ℝ) :
    Vec3.len ⟨a * s, b * s, c * s⟩ = |s| * Vec3.len ⟨a, b, c⟩ := by
  have hv : (⟨a * s, b * s, c * s⟩ : Vec3) = Vec3.smul s ⟨a, b, c⟩ := by
    unfold Vec3.smul
    simp only [Vec3.mk.injEq]
    refine ⟨by ring, by ring, by ring⟩
  rw [hv, len_smul]

/-- The world-space distance of a scaled local position. -/
lemma len_scaled (s : ℝ) (hs : 0 ≤ s) (p : Vec3) :
    Vec3.len ⟨p.x * s, p.y * s, p.z * s⟩ = s * Vec3.len p := by
  rw [len_mul_right, abs_of_nonneg hs]

/-- Length of a spherically sampled vector
`(r sin φ cos θ, r sin φ sin θ, r cos φ)`. -/
lemma len_sphereVec (r θ φ : ℝ) :
    Vec3.len ⟨r * Real.sin φ * Real.cos θ, r * Real.sin φ * Real.sin θ, r * Real.cos φ⟩
      = |r| := by
  unfold Vec3.len
  rw [show r * Real.sin φ * Real.cos θ * (r * Real.sin φ * Real.cos θ) +
      r * Real.sin φ * Real.sin θ * (r * Real.sin φ * Real.sin θ) +
      r * Real.cos φ * (r * Real.cos φ) = r * r from by
    have h1 := Real.sin_sq_add_cos_sq θ
    have h2 := Real.sin_sq_add_cos_sq φ
    linear_combination (r * r * Real.sin φ ^ 2) * h1 + (r * r) * h2]
  exact Real.sqrt_mul_self_eq_abs r

/-- The normalized direction of a vector of positive length is a unit
vector. -/
lemma len_normalized (p : Vec3) (h : 0 < Vec3.len p) :
    Vec3.len ⟨p.x / Vec3.len p, p.y / Vec3.len p, p.z / Vec3.len p⟩ = 1 := by
  have hsq : Vec3.len p * Vec3.len p = p.x * p.x + p.y * p.y + p.z * p.z := by
    unfold Vec3.len
    exact Real.mul_self_sqrt
      (add_nonneg (add_nonneg (mul_self_nonneg _) (mul_self_nonneg _)) (mul_self_nonneg _))
  apply lenEval
  · norm_num
  · field_simp
    linarith [hsq]

/-! ## Branch descriptions and preserved fields of the Mind operations -/

/-- `normalizeVelocityToMotionSpeed` never touches position, radius or
motion speed. -/
lemma normalize_fields (m : Mental) (rs : RandStream) (k : ℕ) :
    (normalizeVelocityToMotionSpeed m rs k).1.position = m.position ∧
    (normalizeVelocityToMotionSpeed m rs k).1.radius = m.radius ∧
    (normalizeVelocityToMotionSpeed m rs k).1.motionSpeed = m.motionSpeed := by
  simp only [normalizeVelocityToMotionSpeed]
  split_ifs <;> exact ⟨rfl, rfl, rfl⟩

/-- Rescaling branch of `normalizeVelocityToMotionSpeed`. -/
lemma normalize_pos_branch (m : Mental) (rs : RandStream) (k : ℕ)
    (h : 0 < Vec3.len m.velocity) :
    normalizeVelocityToMotionSpeed m rs k =
      ({ m with velocity := Vec3.smul (m.motionSpeed / Vec3.len m.velocity) m.velocity }, k) := by
  simp only [normalizeVelocityToMotionSpeed]
  rw [if_pos h]

/-- Zero-velocity, zero-speed branch of `normalizeVelocityToMotionSpeed`:
nothing moves, no random draw is consumed. -/
lemma normalize_zero_branch (m : Mental) (rs : RandStream) (k : ℕ)
    (hmag : Vec3.len m.velocity = 0) (hms : m.motionSpeed = 0) :
    normalizeVelocityToMotionSpeed m rs k = (m, k) := by
  simp only [normalizeVelocityToMotionSpeed]
  rw [if_neg (by rw [hmag]; exact lt_irrefl 0), if_pos hms]

/-- Re-seeding branch of `normalizeVelocityToMotionSpeed`. -/
lemma normalize_reseed_branch (m : Mental) (rs : RandStream) (k : ℕ)
    (hmag : Vec3.len m.velocity = 0) (hms : m.motionSpeed ≠ 0) :
    normalizeVelocityToMotionSpeed m rs k =
      ({ m with velocity :=
          ⟨m.motionSpeed * Real.sin (Real.arccos (rs (k + 1) * 2 - 1)) *
              Real.cos (rs k * Real.pi * 2),
           m.motionSpeed * Real.sin (Real.arccos (rs (k + 1) * 2 - 1)) *
              Real.sin (rs k * Real.pi * 2),
           m.motionSpeed * Real.cos (Real.arccos (rs (k + 1) * 2 - 1))⟩ }, k + 2) := by
  simp only [normalizeVelocityToMotionSpeed]
  rw [if_neg (by rw [hmag]; exact lt_irrefl 0), if_neg hms]

/-- After `normalizeVelocityToMotionSpeed`, the speed is exactly
`motionSpeed` (for a nonnegative motion speed). -/
lemma normalize_len (m : Mental) (rs : RandStream) (k : ℕ) (hms : 0 ≤ m.motionSpeed) :
    Vec3.len (normalizeVelocityToMotionSpeed m rs k).1.velocity = m.motionSpeed := by
  simp only [normalizeVelocityToMotionSpeed]
  split_ifs with h1 h2
  · show Vec3.len (Vec3.smul (m.motionSpeed / Vec3.len m.velocity) m.velocity) = m.motionSpeed
    rw [len_smul, abs_of_nonneg (div_nonneg hms (le_of_lt h1)),
      div_mul_cancel₀ _ (ne_of_gt h1)]
  · show Vec3.len m.velocity = m.motionSpeed
    rw [le_antisymm (not_lt.mp h1) (len_nonneg _), h2]
  · show Vec3.len
        ⟨m.motionSpeed * Real.sin (Real.arccos (rs (k + 1) * 2 - 1)) *
            Real.cos (rs k * Real.pi * 2),
         m.motionSpeed * Real.sin (Real.arccos (rs (k + 1) * 2 - 1)) *
            Real.sin (rs k * Real.pi * 2),
         m.motionSpeed * Real.cos (Real.arccos (rs (k + 1) * 2 - 1))⟩ = m.motionSpeed
    rw [len_sphereVec, abs_of_nonneg hms]

/-- `constrainMentalPosition` never touches velocity, radius or motion
speed. -/
lemma constrain_fields (scale : ℝ) (m : Mental) (rs : RandStream) (k : ℕ) :
    (constrainMentalPosition scale m rs k).1.velocity = m.velocity ∧
    (constrainMentalPosition scale m rs k).1.radius = m.radius ∧
    (constrainMentalPosition scale m rs k).1.motionSpeed = m.motionSpeed := by
  simp only [constrainMentalPosition]
  split_ifs <;> exact ⟨rfl, rfl, rfl⟩

/-- In-range branch of `constrainMentalPosition`: nothing changes. -/
lemma constrain_untouched (scale : ℝ) (m : Mental) (rs : RandStream) (k : ℕ)
    (h1 : Vec3.len ⟨m.position.x * scale, m.position.y * scale, m.position.z * scale⟩ ≤
      max (m.radius * scale + 0.005) (scale - m.radius * scale - 0.01))
    (h2 : Vec3.len ⟨m.position.x * scale, m.position.y * scale, m.position.z * scale⟩ ≠ 0) :
    constrainMentalPosition scale m rs k = (m, k) := by
  simp only [constrainMentalPosition]
  rw [if_neg]
  push_neg
  exact ⟨h1, h2⟩

/-- Clamping branch of `constrainMentalPosition` (positive distance). -/
lemma constrain_clamp (scale : ℝ) (m : Mental) (rs : RandStream) (k : ℕ)
    (h1 : max (m.radius * scale + 0.005) (scale - m.radius * scale - 0.01) <
      Vec3.len ⟨m.position.x * scale, m.position.y * scale, m.position.z * scale⟩)
    (h2 : 0 < Vec3.len ⟨m.position.x * scale, m.position.y * scale, m.position.z * scale⟩)
    (hl : 0 < Vec3.len m.position) :
    constrainMentalPosition scale m rs k =
      ({ m with position :=
          ⟨m.position.x / Vec3.len m.position *
              (max (m.radius * scale + 0.005) (scale - m.radius * scale - 0.01) / scale),
           m.position.y / Vec3.len m.position *
              (max (m.radius * scale + 0.005) (scale - m.radius * scale - 0.01) / scale),
           m.position.z / Vec3.len m.position *
              (max (m.radius * scale + 0.005) (scale - m.radius * scale - 0.01) / scale)⟩ },
        k) := by
  simp only [constrainMentalPosition]
  rw [if_pos (Or.inl h1), if_pos h2]
  simp only [if_pos hl]

/-- Center branch of `constrainMentalPosition`: random re-placement. -/
lemma constrain_center (scale : ℝ) (m : Mental) (rs : RandStream) (k : ℕ)
    (h : Vec3.len ⟨m.position.x * scale, m.position.y * scale, m.position.z * scale⟩ = 0) :
    constrainMentalPosition scale m rs k =
      ({ m with position :=
          ⟨rs k * (max (m.radius * scale + 0.005) (scale - m.radius * scale - 0.01) / scale) *
              0.3 * Real.sin (Real.arccos (rs (k + 2) * 2 - 1)) *
              Real.cos (rs (k + 1) * Real.pi * 2),
           rs k * (max (m.radius * scale + 0.005) (scale - m.radius * scale - 0.01) / scale) *
              0.3 * Real.sin (Real.arccos (rs (k + 2) * 2 - 1)) *
              Real.sin (rs (k + 1) * Real.pi * 2),
           rs k * (max (m.radius * scale + 0.005) (scale - m.radius * scale - 0.01) / scale) *
              0.3 * Real.cos (Real.arccos (rs (k + 2) * 2 - 1))⟩ }, k + 3) := by
  simp only [constrainMentalPosition]
  rw [if_pos (Or.inr h), if_neg (by rw [h]; exact lt_irrefl 0)]

/-- Every output element of `statefulMap` is the image of some input
element under `f` at some cursor value. -/
lemma statefulMap_mem {α : Type} (f : α → ℕ → α × ℕ) :
    ∀ (l : List α) (k : ℕ) (y : α), y ∈ (statefulMap f l k).1 →
      ∃ x k1, x ∈ l ∧ y = (f x k1).1 := by
  intro l
  induction l with
  | nil => intro k y hy; exact absurd hy (List.not_mem_nil y)
  | cons a as ih =>
    intro k y hy
    simp only [statefulMap] at hy
    rcases List.mem_cons.mp hy with h | h
    · exact ⟨a, k, List.mem_cons_self a as, h⟩
    · obtain ⟨x, k1, hx, hyx⟩ := ih _ y h
      exact ⟨x, k1, List.mem_cons_of_mem a hx, hyx⟩

/-- Every mental in the output of `updatePhysics` is the result of the
final constrain-and-normalize pass applied to some intermediate mental. -/
lemma updatePhysics_mem (scale deltaTime : ℝ) (ms : List Mental) (rs : RandStream) (k : ℕ)
    (m' : Mental) (hm : m' ∈ (updatePhysics scale deltaTime ms rs k).1) :
    ∃ z k1, m' =
      (normalizeVelocityToMotionSpeed (constrainMentalPosition scale z rs k1).1 rs
        (constrainMentalPosition scale z rs k1).2).1 := by
  simp only [updatePhysics] at hm
  obtain ⟨z, k1, _, hz⟩ := statefulMap_mem _ _ _ _ hm
  exact ⟨z, k1, hz⟩

/-- The position reached by `constrainMentalPosition` is bounded by the
clamp target `maxDistance` (in world units), for any starting state. -/
lemma constrain_bound (scale : ℝ) (m : Mental) (rs : RandStream) (k : ℕ)
    (hs : 0 < scale) (hr : 0 ≤ m.radius) (h0 : 0 ≤ rs k) (h1 : rs k ≤ 1) :
    Vec3.len (constrainMentalPosition scale m rs k).1.position * scale ≤
      max (m.radius * scale + 0.005) (scale - m.radius * scale - 0.01) := by
  have hmax : (0 : ℝ) < max (m.radius * scale + 0.005) (scale - m.radius * scale - 0.01) :=
    lt_of_lt_of_le (by nlinarith) (le_max_left _ _)
  simp only [constrainMentalPosition]
  split_ifs with hcond hpos hloc
  · -- clamped to the limit along the local normal
    show Vec3.len
        ⟨m.position.x / Vec3.len m.position *
            (max (m.radius * scale + 0.005) (scale - m.radius * scale - 0.01) / scale),
         m.position.y / Vec3.len m.position *
            (max (m.radius * scale + 0.005) (scale - m.radius * scale - 0.01) / scale),
         m.position.z / Vec3.len m.position *
            (max (m.radius * scale + 0.005) (scale - m.radius * scale - 0.01) / scale)⟩ *
        scale ≤ max (m.radius * scale + 0.005) (scale - m.radius * scale - 0.01)
    rw [len_mul_right, len_normalized m.position hloc, mul_one,
      abs_of_nonneg (div_nonneg hmax.le hs.le), div_mul_cancel₀ _ (ne_of_gt hs)]
  · -- impossible: positive world distance but zero local distance
    exfalso
    rw [len_scaled scale hs.le] at hpos
    have : Vec3.len m.position = 0 := le_antisymm (not_lt.mp hloc) (len_nonneg _)
    rw [this, mul_zero] at hpos
    exact lt_irrefl 0 hpos
  · -- random re-placement near the center
    show Vec3.len
        ⟨rs k * (max (m.radius * scale + 0.005) (scale - m.radius * scale - 0.01) / scale) *
            0.3 * Real.sin (Real.arccos (rs (k + 2) * 2 - 1)) *
            Real.cos (rs (k + 1) * Real.pi * 2),
         rs k * (max (m.radius * scale + 0.005) (scale - m.radius * scale - 0.01) / scale) *
            0.3 * Real.sin (Real.arccos (rs (k + 2) * 2 - 1)) *
            Real.sin (rs (k + 1) * Real.pi * 2),
         rs k * (max (m.radius * scale + 0.005) (scale - m.radius * scale - 0.01) / scale) *
            0.3 * Real.cos (Real.arccos (rs (k + 2) * 2 - 1))⟩ *
        scale ≤ max (m.radius * scale + 0.005) (scale - m.radius * scale - 0.01)
    rw [len_sphereVec]
    rw [abs_of_nonneg (by positivity)]
    have key : rs k * (max (m.radius * scale + 0.005) (scale - m.radius * scale - 0.01) / scale)
        * 0.3 * scale =
        rs k * 0.3 * max (m.radius * scale + 0.005) (scale - m.radius * scale - 0.01) := by
      field_simp
      ring
    rw [key]
    nlinarith [hmax]
  · -- untouched: the distance was already within the clamp target
    push_neg at hcond
    have hc1 := hcond.1
    rw [len_scaled scale hs.le] at hc1
    show Vec3.len m.position * scale ≤
      max (m.radius * scale + 0.005) (scale - m.radius * scale - 0.01)
    rw [mul_comm]
    exact hc1

lemma Vec3.smul_one (v : Vec3) : Vec3.smul 1 v = v :=
  Vec3.ext (one_mul _) (one_mul _) (one_mul _)

/-- A mental already moving at exactly its (positive) motion speed is left
unchanged by `normalizeVelocityToMotionSpeed`. -/
lemma normalize_id (m : Mental) (rs : RandStream) (k : ℕ)
    (h : Vec3.len m.velocity = m.motionSpeed) (hpos : 0 < m.motionSpeed) :
    normalizeVelocityToMotionSpeed m rs k = (m, k) := by
  rw [normalize_pos_branch m rs k (h ▸ hpos), h, div_self (ne_of_gt hpos), Vec3.smul_one]

/-- Integration branch of `integrateMental` when the candidate position
stays inside the boundary. -/
lemma integrate_inside (scale deltaTime : ℝ) (m : Mental) (rs : RandStream) (k : ℕ)
    (m' : Mental) (k' : ℕ)
    (hn : normalizeVelocityToMotionSpeed m rs k = (m', k'))
    (hin : ¬ (scale - m'.radius * scale - 0.01 <
      Vec3.len ⟨(integratePos (deltaTime * 60) m'.position m'.velocity).x * scale,
        (integratePos (deltaTime * 60) m'.position m'.velocity).y * scale,
        (integratePos (deltaTime * 60) m'.position m'.velocity).z * scale⟩)) :
    integrateMental scale deltaTime m rs k =
      ({ m' with position := integratePos (deltaTime * 60) m'.position m'.velocity }, k') := by
  simp only [integrateMental, hn]
  rw [if_neg hin]

/-- Boundary branch of `integrateMental` with the velocity not heading
outward: no reflection, clamp to the limit along the candidate normal. -/
lemma integrate_clamp_noReflect (scale deltaTime : ℝ) (m : Mental) (rs : RandStream) (k : ℕ)
    (m' : Mental) (k' : ℕ) (m'' : Mental) (k'' : ℕ)
    (hn : normalizeVelocityToMotionSpeed m rs k = (m', k'))
    (hout : scale - m'.radius * scale - 0.01 <
      Vec3.len ⟨(integratePos (deltaTime * 60) m'.position m'.velocity).x * scale,
        (integratePos (deltaTime * 60) m'.position m'.velocity).y * scale,
        (integratePos (deltaTime * 60) m'.position m'.velocity).z * scale⟩)
    (hnl : 0 < Vec3.len (integratePos (deltaTime * 60) m'.position m'.velocity))
    (hdot : ¬ (0 < m'.velocity.x *
        ((integratePos (deltaTime * 60) m'.position m'.velocity).x /
          Vec3.len (integratePos (deltaTime * 60) m'.position m'.velocity)) +
      m'.velocity.y *
        ((integratePos (deltaTime * 60) m'.position m'.velocity).y /
          Vec3.len (integratePos (deltaTime * 60) m'.position m'.velocity)) +
      m'.velocity.z *
        ((integratePos (deltaTime * 60) m'.position m'.velocity).z /
          Vec3.len (integratePos (deltaTime * 60) m'.position m'.velocity))))
    (hn2 : normalizeVelocityToMotionSpeed m' rs k' = (m'', k'')) :
    integrateMental scale deltaTime m rs k =
      ({ m'' with position :=
          ⟨(integratePos (deltaTime * 60) m'.position m'.velocity).x /
              Vec3.len (integratePos (deltaTime * 60) m'.position m'.velocity) *
              ((scale - m'.radius * scale - 0.01) / scale),
           (integratePos (deltaTime * 60) m'.position m'.velocity).y /
              Vec3.len (integratePos (deltaTime * 60) m'.position m'.velocity) *
              ((scale - m'.radius * scale - 0.01) / scale),
           (integratePos (deltaTime * 60) m'.position m'.velocity).z /
              Vec3.len (integratePos (deltaTime * 60) m'.position m'.velocity) *
              ((scale - m'.radius * scale - 0.01) / scale)⟩ }, k'') := by
  simp only [integrateMental, hn]
  rw [if_pos hout]
  simp only [if_pos hnl]
  rw [if_neg hdot]
  simp only [hn2]

/-- Skip branch of `Mind.handleCollision`: no overlap or coincident
centers, both mentals returned untouched. -/
lemma handleCollision_skip (m1 m2 : Mental) (rs : RandStream) (k : ℕ)
    (h : ¬ (Vec3.len (Vec3.sub m2.position m1.position) < m1.radius + m2.radius ∧
      0 < Vec3.len (Vec3.sub m2.position m1.position))) :
    handleCollision m1 m2 rs k = (m1, m2, k) := by
  simp only [handleCollision]
  rw [if_neg h]

/-- Overlap branch of `Mind.handleCollision` with the bodies not
approaching: positions are separated, velocities untouched. -/
lemma handleCollision_sep (m1 m2 : Mental) (rs : RandStream) (k : ℕ)
    (hlt : Vec3.len (Vec3.sub m2.position m1.position) < m1.radius + m2.radius)
    (hpos : 0 < Vec3.len (Vec3.sub m2.position m1.position))
    (hdot : ¬ (Vec3.dot (Vec3.sub m2.velocity m1.velocity)
      (Vec3.smul (1 / Vec3.len (Vec3.sub m2.position m1.position))
        (Vec3.sub m2.position m1.position)) < 0)) :
    handleCollision m1 m2 rs k =
      ({ m1 with position := (Vec3.sub m1.position
          (Vec3.smul ((m1.radius + m2.radius - Vec3.len (Vec3.sub m2.position m1.position)) *
              0.5 / Vec3.len (Vec3.sub m2.position m1.position))
            (Vec3.sub m2.position m1.position))) },
       { m2 with position := (Vec3.add m2.position
          (Vec3.smul ((m1.radius + m2.radius - Vec3.len (Vec3.sub m2.position m1.position)) *
              0.5 / Vec3.len (Vec3.sub m2.position m1.position))
            (Vec3.sub m2.position m1.position))) }, k) := by
  simp only [handleCollision]
  rw [if_pos ⟨hlt, hpos⟩, if_neg hdot]

/-- Overlap branch of `Mind.handleCollision` with the bodies approaching:
positions separated, impulse applied, both speeds re-normalized. -/
lemma handleCollision_imp (m1 m2 : Mental) (rs : RandStream) (k : ℕ)
    (hlt : Vec3.len (Vec3.sub m2.position m1.position) < m1.radius + m2.radius)
    (hpos : 0 < Vec3.len (Vec3.sub m2.position m1.position))
    (hdot : Vec3.dot (Vec3.sub m2.velocity m1.velocity)
      (Vec3.smul (1 / Vec3.len (Vec3.sub m2.position m1.position))
        (Vec3.sub m2.position m1.position)) < 0) :
    handleCollision m1 m2 rs k =
      (let delta := Vec3.sub m2.position m1.position
       let distance := Vec3.len delta
       let separation := Vec3.smul ((m1.radius + m2.radius - distance) * 0.5 / distance) delta
       let n := Vec3.smul (1 / distance) delta
       let dp := Vec3.dot (Vec3.sub m2.velocity m1.velocity) n
       let m1b := { m1 with position := (Vec3.sub m1.position separation),
                            velocity := mindImpulseVel1 m1.velocity n dp }
       let m2b := { m2 with position := (Vec3.add m2.position separation),
                            velocity := mindImpulseVel2 m2.velocity n dp }
       let r1 := normalizeVelocityToMotionSpeed m1b rs k
       let r2 := normalizeVelocityToMotionSpeed m2b rs r1.2
       (r1.1, r2.1, r2.2)) := by
  simp only [handleCollision]
  rw [if_pos ⟨hlt, hpos⟩]
  rw [if_pos hdot]

/-! ## Demo branch lemmas and small-list unfoldings -/

/-- `THREE.Vector3.normalize` of a vector of nonzero length is a unit
vector. -/
lemma threeNormalize_len (v : Vec3) (h : Vec3.len v ≠ 0) : Vec3.len (threeNormalize v) = 1 := by
  have hL : 0 < Vec3.len v := lt_of_le_of_ne (len_nonneg v) (Ne.symm h)
  simp only [threeNormalize]
  rw [if_neg h, len_smul, abs_of_nonneg (by positivity)]
  field_simp

/-- The demo's damping factor is `1.0`, so the damping step is the
identity. -/
lemma demoDamping_smul (v : Vec3) : Vec3.smul demoDamping v = v := by
  rw [show demoDamping = 1 from by norm_num [demoDamping], Vec3.smul_one]

/-- Mid-band branch of the demo speed clamp: velocity unchanged. -/
lemma demoClamp_mid (vel : Vec3) (rs : RandStream) (k : ℕ)
    (h1 : ¬ demoMaxSpeed < Vec3.len vel) (h2 : ¬ Vec3.len vel < demoMinSpeed) :
    demoClampSpeed vel rs k = (vel, k) := by
  simp only [demoClampSpeed, demoDamping_smul]
  rw [if_neg h2, if_neg h1]

/-- Above-max branch of the demo speed clamp: rescaled to `maxSpeed`. -/
lemma demoClamp_high (vel : Vec3) (rs : RandStream) (k : ℕ)
    (h1 : demoMaxSpeed < Vec3.len vel) :
    demoClampSpeed vel rs k = (Vec3.smul (demoMaxSpeed / Vec3.len vel) vel, k) := by
  have h2 : ¬ Vec3.len vel < demoMinSpeed := by
    simp only [demoMinSpeed]
    simp only [demoMaxSpeed] at h1
    push_neg
    linarith
  simp only [demoClampSpeed, demoDamping_smul]
  rw [if_neg h2, if_pos h1]

/-- Below-min branch of the demo speed clamp: random direction scaled to
`minSpeed`. -/
lemma demoClamp_low (vel : Vec3) (rs : RandStream) (k : ℕ)
    (h2 : Vec3.len vel < demoMinSpeed) :
    demoClampSpeed vel rs k =
      (Vec3.smul demoMinSpeed
        (threeNormalize ⟨rs k * 2 - 1, rs (k + 1) * 2 - 1, rs (k + 2) * 2 - 1⟩), k + 3) := by
  simp only [demoClampSpeed, demoDamping_smul]
  rw [if_pos h2]

/-- In-range branch of the demo per-ball update: clamp speed and
integrate, no wall contact. -/
lemma demoBall_noWall (dt : ℝ) (b : Ball) (rs : RandStream) (k : ℕ) (v' : Vec3) (k' : ℕ)
    (hc : demoClampSpeed b.vel rs k = (v', k'))
    (hin : ¬ (demoContainerRadius - demoBallRadius <
      Vec3.len (Vec3.add b.pos (Vec3.smul dt v')))) :
    demoBallUpdate dt b rs k = (⟨Vec3.add b.pos (Vec3.smul dt v'), v'⟩, k') := by
  simp only [demoBallUpdate, hc]
  rw [if_neg hin]

/-- Overlapping-and-approaching branch of the demo pair collision. -/
lemma demoPair_imp (a b : Ball)
    (h0 : 0 < Vec3.len (Vec3.sub b.pos a.pos))
    (hlt : Vec3.len (Vec3.sub b.pos a.pos) < demoBallRadius * 2)
    (hrel : Vec3.dot (Vec3.sub b.vel a.vel)
      (Vec3.smul (1 / Vec3.len (Vec3.sub b.pos a.pos)) (Vec3.sub b.pos a.pos)) < 0) :
    demoPairCollide a b =
      (let tmp := Vec3.sub b.pos a.pos
       let d := Vec3.len tmp
       let n := Vec3.smul (1 / d) tmp
       let push := (demoBallRadius * 2 - d) * 0.5
       let impulse := Vec3.smul (-0.5 * (1 + demoRestitution) *
         Vec3.dot (Vec3.sub b.vel a.vel) n) n
       ((⟨Vec3.add a.pos (Vec3.smul (-push) n), Vec3.add a.vel (Vec3.smul (-1) impulse)⟩ : Ball),
        (⟨Vec3.add b.pos (Vec3.smul push n), Vec3.add b.vel impulse⟩ : Ball))) := by
  simp only [demoPairCollide]
  rw [if_pos ⟨h0, hlt⟩]
  rw [if_pos hrel]

/-- Skip branch of the demo pair collision: both balls untouched. -/
lemma demoPair_skip (a b : Ball)
    (h : ¬ (0 < Vec3.len (Vec3.sub b.pos a.pos) ∧
      Vec3.len (Vec3.sub b.pos a.pos) < demoBallRadius * 2)) :
    demoPairCollide a b = (a, b) := by
  simp only [demoPairCollide]
  rw [if_neg h]

lemma statefulMap_one {α : Type} (f : α → ℕ → α × ℕ) (a : α) (k : ℕ) :
    statefulMap f [a] k = ([(f a k).1], (f a k).2) := rfl

lemma statefulMap_two {α : Type} (f : α → ℕ → α × ℕ) (a b : α) (k : ℕ) :
    statefulMap f [a, b] k = ([(f a k).1, (f b (f a k).2).1], (f b (f a k).2).2) := rfl

lemma collisionPhase_one (a : Mental) (rs : RandStream) (k : ℕ) :
    collisionPhase [a] rs k = ([a], k) := rfl

lemma collisionPhase_two (a b : Mental) (rs : RandStream) (k : ℕ) :
    collisionPhase [a, b] rs k =
      ([(handleCollision a b rs k).1, (handleCollision a b rs k).2.1],
        (handleCollision a b rs k).2.2) := rfl

lemma demoCollisionPhase_two (a b : Ball) :
    demoCollisionPhase [a, b] = [(demoPairCollide a b).1, (demoPairCollide a b).2] := rfl

/-- `updatePhysics` on a single mental, fully unfolded. -/
lemma updatePhysics_one (scale deltaTime : ℝ) (m : Mental) (rs : RandStream) (k : ℕ) :
    updatePhysics scale deltaTime [m] rs k =
      (let r1 := integrateMental scale deltaTime m rs k
       let c := constrainMentalPosition scale r1.1 rs r1.2
       let n := normalizeVelocityToMotionSpeed c.1 rs c.2
       ([n.1], n.2)) := by
  simp only [updatePhysics, statefulMap_one, collisionPhase_one]

/-- `updatePhysics` on two mentals, fully unfolded. -/
lemma updatePhysics_two (scale deltaTime : ℝ) (a b : Mental) (rs : RandStream) (k : ℕ) :
    updatePhysics scale deltaTime [a, b] rs k =
      (let ra := integrateMental scale deltaTime a rs k
       let rb := integrateMental scale deltaTime b rs ra.2
       let hc := handleCollision ra.1 rb.1 rs rb.2
       let ca := constrainMentalPosition scale hc.1 rs hc.2.2
       let na := normalizeVelocityToMotionSpeed ca.1 rs ca.2
       let cb := constrainMentalPosition scale hc.2.1 rs na.2
       let nb := normalizeVelocityToMotionSpeed cb.1 rs cb.2
       ([na.1, nb.1], nb.2)) := by
  simp only [updatePhysics, statefulMap_two, collisionPhase_two]

/-- `demoStep` on two balls, fully unfolded. -/
lemma demoStep_two (elapsed : ℝ) (a b : Ball) (rs : RandStream) (k : ℕ) :
    demoStep elapsed [a, b] rs k =
      (let dt := min elapsed 0.033
       let ra := demoBallUpdate dt a rs k
       let rb := demoBallUpdate dt b rs ra.2
       let pc := demoPairCollide ra.1 rb.1
       ([pc.1, pc.2], rb.2)) := by
  simp only [demoStep, statefulMap_two, demoCollisionPhase_two]

/-! ## Concrete run machinery -/

/-- Length of a vector on the x-axis. -/
lemma lenX (a : ℝ) : Vec3.len ⟨a, 0, 0⟩ = |a| := by
  unfold Vec3.len
  rw [show a * a + 0 * 0 + 0 * 0 = a * a from by ring]
  exact Real.sqrt_mul_self_eq_abs a

/-- Length of a vector on the y-axis. -/
lemma lenY (a : ℝ) : Vec3.len ⟨0, a, 0⟩ = |a| := by
  unfold Vec3.len
  rw [show 0 * 0 + a * a + 0 * 0 = a * a from by ring]
  exact Real.sqrt_mul_self_eq_abs a

/-- Constant random stream used for concrete runs. -/
noncomputable def rsHalf : RandStream := fun _ => 1 / 2

/-- Constant-zero random stream used for concrete runs. -/
noncomputable def rsZero : RandStream := fun _ => 0

/-- `normalizeVelocityToMotionSpeed` zeroes the velocity of any mental
whose motion speed is `0`. -/
lemma normalize_ms_zero (m : Mental) (rs : RandStream) (k : ℕ) (hms : m.motionSpeed = 0) :
    (normalizeVelocityToMotionSpeed m rs k).1.velocity = ⟨0, 0, 0⟩ := by
  rcases lt_or_eq_of_le (len_nonneg m.velocity) with h1 | h1
  · rw [normalize_pos_branch m rs k h1]
    show Vec3.smul (m.motionSpeed / Vec3.len m.velocity) m.velocity = ⟨0, 0, 0⟩
    rw [hms, zero_div]
    simp [Vec3.smul]
  · rw [normalize_zero_branch m rs k h1.symm hms]
    exact len_eq_zero h1.symm

/-- A stationary mental with zero motion speed. -/
noncomputable def Mz : Mental := ⟨⟨0.3, 0, 0⟩, ⟨0, 0, 0⟩, 0.1, 0⟩

lemma run_z_norm : normalizeVelocityToMotionSpeed Mz rsHalf 0 = (Mz, 0) := by
  apply normalize_zero_branch
  · show Vec3.len ⟨0, 0, 0⟩ = 0
    exact len_zero
  · rfl

lemma run_z_integrate : integrateMental 1 0.016 Mz rsHalf 0 = (Mz, 0) := by
  have hip : integratePos (0.016 * 60) Mz.position Mz.velocity = ⟨0.3, 0, 0⟩ := by
    show (⟨0.3 + 0 * (0.016 * 60), 0 + 0 * (0.016 * 60), 0 + 0 * (0.016 * 60)⟩ : Vec3) = _
    norm_num
  have hin : ¬ ((1 : ℝ) - Mz.radius * 1 - 0.01 <
      Vec3.len ⟨(integratePos (0.016 * 60) Mz.position Mz.velocity).x * 1,
        (integratePos (0.016 * 60) Mz.position Mz.velocity).y * 1,
        (integratePos (0.016 * 60) Mz.position Mz.velocity).z * 1⟩) := by
    rw [hip]
    show ¬ ((1 : ℝ) - 0.1 * 1 - 0.01 < Vec3.len ⟨0.3 * 1, 0 * 1, 0 * 1⟩)
    norm_num [lenX, abs_of_nonneg, abs_of_nonpos]
  rw [integrate_inside 1 0.016 Mz rsHalf 0 Mz 0 run_z_norm hin, hip]
  rfl

lemma run_z_constrain : constrainMentalPosition 1 Mz rsHalf 0 = (Mz, 0) := by
  apply constrain_untouched
  · show Vec3.len ⟨0.3 * 1, 0 * 1, 0 * 1⟩ ≤ max (0.1 * 1 + 0.005) (1 - 0.1 * 1 - 0.01)
    norm_num [lenX, abs_of_nonneg, abs_of_nonpos, max_def]
  · show Vec3.len ⟨0.3 * 1, 0 * 1, 0 * 1⟩ ≠ 0
    norm_num [lenX, abs_of_nonneg, abs_of_nonpos]

lemma run_z : updatePhysics 1 0.016 [Mz] rsHalf 0 = ([Mz], 0) := by
  rw [updatePhysics_one]
  simp only [run_z_integrate, run_z_constrain, run_z_norm]

/-! ## Claim C10 -/

/-- C10: for a mental whose `motionSpeed` equals `0`,
`normalizeVelocityToMotionSpeed` maps any nonzero velocity to exactly
`(0,0,0)` (rescaling by `0/|v|`) and leaves a zero velocity at zero; since
`Mind.updatePhysics` invokes it for every mental, such a mental's velocity
is exactly `(0,0,0)` after every `updatePhysics` call, and the integration
phase displaces a zero-velocity mental by zero. -/
theorem C10_zero_motion_speed :
    (∀ (m : Mental) (rs : RandStream) (k : ℕ), m.motionSpeed = 0 →
      (normalizeVelocityToMotionSpeed m rs k).1.velocity = ⟨0, 0, 0⟩) ∧
    (∀ (scale deltaTime : ℝ) (ms : List Mental) (rs : RandStream) (k : ℕ) (m' : Mental),
      m' ∈ (updatePhysics scale deltaTime ms rs k).1 → m'.motionSpeed = 0 →
      m'.velocity = ⟨0, 0, 0⟩) ∧
    (∀ (speedMultiplier : ℝ) (p : Vec3), integratePos speedMultiplier p ⟨0, 0, 0⟩ = p) := by
  refine ⟨fun m rs k hms => normalize_ms_zero m rs k hms, ?_, ?_⟩
  · intro scale dt msl rs k m' hm hms
    obtain ⟨z, k1, hz⟩ := updatePhysics_mem scale dt msl rs k m' hm
    have hwms : (constrainMentalPosition scale z rs k1).1.motionSpeed = 0 := by
      have h1 : m'.motionSpeed = (constrainMentalPosition scale z rs k1).1.motionSpeed := by
        rw [hz]
        exact (normalize_fields _ rs _).2.2
      rw [← h1, hms]
    rw [hz]
    exact normalize_ms_zero _ rs _ hwms
  · intro sm p
    show (⟨p.x + 0 * sm, p.y + 0 * sm, p.z + 0 * sm⟩ : Vec3) = p
    apply Vec3.ext <;> simp

/-- Witness for C10 at a concrete zero-speed mental. -/
theorem C10_witness :
    (normalizeVelocityToMotionSpeed Mz rsHalf 0).1.velocity = ⟨0, 0, 0⟩ ∧
    Mz.velocity = ⟨0, 0, 0⟩ ∧
    integratePos (0.016 * 60) ⟨0.3, 0, 0⟩ ⟨0, 0, 0⟩ = ⟨0.3, 0, 0⟩ :=
  ⟨C10_zero_motion_speed.1 Mz rsHalf 0 rfl,
   C10_zero_motion_speed.2.1 1 0.016 [Mz] rsHalf 0 Mz
     (by rw [run_z]; exact List.mem_singleton_self Mz) rfl,
   C10_zero_motion_speed.2.2 (0.016 * 60) ⟨0.3, 0, 0⟩⟩

/-! ## Claim C9 -/

/-- C9: pairwise collision resolution leaves both bodies' positions and
velocities entirely unchanged when the center distance is `0` (coincident
centers) or at least `radius_i + radius_j` (not overlapping), both in
`Mind.handleCollision` and in the demo's pair resolution; the `distance > 0`
guard means the divisions by `distance` are never reached in these cases. -/
theorem C9_degenerate_pair_skip (m1 m2 : Mental) (a b : Ball) (rs : RandStream) (k : ℕ)
    (hm : Vec3.len (Vec3.sub m2.position m1.position) = 0 ∨
      m1.radius + m2.radius ≤ Vec3.len (Vec3.sub m2.position m1.position))
    (hb : Vec3.len (Vec3.sub b.pos a.pos) = 0 ∨
      demoBallRadius * 2 ≤ Vec3.len (Vec3.sub b.pos a.pos)) :
    handleCollision m1 m2 rs k = (m1, m2, k) ∧ demoPairCollide a b = (a, b) := by
  constructor
  · apply handleCollision_skip
    rintro ⟨h1, h2⟩
    rcases hm with h | h
    · rw [h] at h2
      exact lt_irrefl 0 h2
    · exact absurd h1 (not_lt.mpr h)
  · apply demoPair_skip
    rintro ⟨h2, h1⟩
    rcases hb with h | h
    · rw [h] at h2
      exact lt_irrefl 0 h2
    · exact absurd h1 (not_lt.mpr h)

/-- A mental used as both members of a coincident pair. -/
noncomputable def M9 : Mental := ⟨⟨0.2, 0, 0⟩, ⟨0.01, 0, 0⟩, 0.1, 0.01⟩

/-- A ball used as both members of a coincident pair. -/
noncomputable def B9 : Ball := ⟨⟨0.1, 0, 0⟩, ⟨0.2, 0, 0⟩⟩

/-- Witness for C9 at coincident centers. -/
theorem C9_witness :
    handleCollision M9 M9 rsHalf 0 = (M9, M9, 0) ∧ demoPairCollide B9 B9 = (B9, B9) :=
  C9_degenerate_pair_skip M9 M9 B9 B9 rsHalf 0
    (Or.inl (by
      rw [show Vec3.sub M9.position M9.position = ⟨0, 0, 0⟩ from by norm_num [Vec3.sub, M9]]
      exact len_zero))
    (Or.inl (by
      rw [show Vec3.sub B9.pos B9.pos = ⟨0, 0, 0⟩ from by norm_num [Vec3.sub, B9]]
      exact len_zero))

/-! ## Claim C2 -/

/-- C2: for every body with `motionSpeed > 0`, after a completed
`updatePhysics` the speed equals `motionSpeed` exactly; and after a pairwise
collision impulse, the speed invariant is re-applied to both bodies inside
`handleCollision`, so both leave with speed equal to their motion speeds. -/
theorem C2_fixed_speed :
    (∀ (scale deltaTime : ℝ) (ms : List Mental) (rs : RandStream) (k : ℕ) (m' : Mental),
      m' ∈ (updatePhysics scale deltaTime ms rs k).1 → 0 < m'.motionSpeed →
      Vec3.len m'.velocity = m'.motionSpeed) ∧
    (∀ (m1 m2 : Mental) (rs : RandStream) (k : ℕ),
      Vec3.len (Vec3.sub m2.position m1.position) < m1.radius + m2.radius →
      0 < Vec3.len (Vec3.sub m2.position m1.position) →
      Vec3.dot (Vec3.sub m2.velocity m1.velocity)
        (Vec3.smul (1 / Vec3.len (Vec3.sub m2.position m1.position))
          (Vec3.sub m2.position m1.position)) < 0 →
      0 ≤ m1.motionSpeed → 0 ≤ m2.motionSpeed →
      Vec3.len (handleCollision m1 m2 rs k).1.velocity = m1.motionSpeed ∧
      Vec3.len (handleCollision m1 m2 rs k).2.1.velocity = m2.motionSpeed) := by
  constructor
  · intro scale dt msl rs k m' hm hms
    obtain ⟨z, k1, hz⟩ := updatePhysics_mem scale dt msl rs k m' hm
    have hmsw : m'.motionSpeed = (constrainMentalPosition scale z rs k1).1.motionSpeed := by
      rw [hz]
      exact (normalize_fields _ rs _).2.2
    rw [hz, normalize_len _ rs _ (by rw [← hmsw]; exact hms.le), ← hmsw,
      (normalize_fields _ rs _).2.2]
    exact hmsw
  · intro m1 m2 rs k hlt hpos hdot hms1 hms2
    rw [handleCollision_imp m1 m2 rs k hlt hpos hdot]
    exact ⟨normalize_len _ rs _ hms1, normalize_len _ rs _ hms2⟩

/-- A mental cruising at its motion speed, inside the boundary. -/
noncomputable def Ms : Mental := ⟨⟨0.1, 0, 0⟩, ⟨0.1, 0, 0⟩, 0.1, 0.1⟩

/-- The state of `Ms` after one `updatePhysics` step. -/
noncomputable def Msa : Mental := ⟨⟨0.196, 0, 0⟩, ⟨0.1, 0, 0⟩, 0.1, 0.1⟩

lemma run_s_norm : normalizeVelocityToMotionSpeed Ms rsHalf 0 = (Ms, 0) := by
  apply normalize_id
  · show Vec3.len ⟨0.1, 0, 0⟩ = Ms.motionSpeed
    norm_num [lenX, abs_of_nonneg, Ms]
  · norm_num [Ms]

lemma run_s_integrate : integrateMental 1 0.016 Ms rsHalf 0 = (Msa, 0) := by
  have hip : integratePos (0.016 * 60) Ms.position Ms.velocity = ⟨0.196, 0, 0⟩ := by
    show (⟨0.1 + 0.1 * (0.016 * 60), 0 + 0 * (0.016 * 60), 0 + 0 * (0.016 * 60)⟩ : Vec3) = _
    norm_num
  have hin : ¬ ((1 : ℝ) - Ms.radius * 1 - 0.01 <
      Vec3.len ⟨(integratePos (0.016 * 60) Ms.position Ms.velocity).x * 1,
        (integratePos (0.016 * 60) Ms.position Ms.velocity).y * 1,
        (integratePos (0.016 * 60) Ms.position Ms.velocity).z * 1⟩) := by
    rw [hip]
    show ¬ ((1 : ℝ) - 0.1 * 1 - 0.01 < Vec3.len ⟨0.196 * 1, 0 * 1, 0 * 1⟩)
    norm_num [lenX, abs_of_nonneg, abs_of_nonpos]
  rw [integrate_inside 1 0.016 Ms rsHalf 0 Ms 0 run_s_norm hin, hip]
  rfl

lemma run_s_constrain : constrainMentalPosition 1 Msa rsHalf 0 = (Msa, 0) := by
  apply constrain_untouched
  · show Vec3.len ⟨0.196 * 1, 0 * 1, 0 * 1⟩ ≤ max (0.1 * 1 + 0.005) (1 - 0.1 * 1 - 0.01)
    norm_num [lenX, abs_of_nonneg, abs_of_nonpos, max_def]
  · show Vec3.len ⟨0.196 * 1, 0 * 1, 0 * 1⟩ ≠ 0
    norm_num [lenX, abs_of_nonneg, abs_of_nonpos]

lemma run_s_norm2 : normalizeVelocityToMotionSpeed Msa rsHalf 0 = (Msa, 0) := by
  apply normalize_id
  · show Vec3.len ⟨0.1, 0, 0⟩ = Msa.motionSpeed
    norm_num [lenX, abs_of_nonneg, Msa]
  · norm_num [Msa]

lemma run_s : updatePhysics 1 0.016 [Ms] rsHalf 0 = ([Msa], 0) := by
  rw [updatePhysics_one]
  simp only [run_s_integrate, run_s_constrain, run_s_norm2]

/-- An overlapping, approaching mental pair (speeds 0.1, motion speed
0.05); used to exercise collision impulses. -/
noncomputable def M3a : Mental := ⟨⟨-0.05, 0, 0⟩, ⟨0.1, 0, 0⟩, 0.1, 0.05⟩

/-- Second member of the overlapping pair. -/
noncomputable def M3b : Mental := ⟨⟨0.05, 0, 0⟩, ⟨-0.1, 0, 0⟩, 0.1, 0.05⟩

lemma pair3_delta : Vec3.sub M3b.position M3a.position = ⟨0.1, 0, 0⟩ := by
  norm_num [Vec3.sub, M3a, M3b]

lemma pair3_len : Vec3.len (Vec3.sub M3b.position M3a.position) = 0.1 := by
  rw [pair3_delta]
  norm_num [lenX, abs_of_nonneg]

lemma pair3_dot : Vec3.dot (Vec3.sub M3b.velocity M3a.velocity)
    (Vec3.smul (1 / Vec3.len (Vec3.sub M3b.position M3a.position))
      (Vec3.sub M3b.position M3a.position)) = -0.2 := by
  rw [pair3_len, pair3_delta]
  norm_num [Vec3.dot, Vec3.sub, Vec3.smul, M3a, M3b]

/-- Witness for C2: a cruising mental keeps speed `0.1` through a step, and
a colliding pair leaves `handleCollision` at speed `0.05` each. -/
theorem C2_witness :
    (0 < Msa.motionSpeed ∧ Vec3.len Msa.velocity = Msa.motionSpeed) ∧
    (Vec3.len (handleCollision M3a M3b rsHalf 0).1.velocity = M3a.motionSpeed ∧
     Vec3.len (handleCollision M3a M3b rsHalf 0).2.1.velocity = M3b.motionSpeed) :=
  ⟨⟨by norm_num [Msa],
    C2_fixed_speed.1 1 0.016 [Ms] rsHalf 0 Msa
      (by rw [run_s]; exact List.mem_singleton_self Msa) (by norm_num [Msa])⟩,
   C2_fixed_speed.2 M3a M3b rsHalf 0
     (by rw [pair3_len]; norm_num [M3a, M3b])
     (by rw [pair3_len]; norm_num)
     (by rw [pair3_dot]; norm_num)
     (by norm_num [M3a]) (by norm_num [M3b])⟩

/-! ## Claim C3 -/

/-- The squared length identity. -/
lemma len_sq (v : Vec3) : Vec3.len v * Vec3.len v = v.x * v.x + v.y * v.y + v.z * v.z := by
  unfold Vec3.len
  exact Real.mul_self_sqrt
    (add_nonneg (add_nonneg (mul_self_nonneg _) (mul_self_nonneg _)) (mul_self_nonneg _))

/-- Closing speed of two opposite velocities of magnitude `c` along the
line of centers `δ`. -/
lemma dot_opposite_line (v : Vec3) (c : ℝ) (h0 : 0 < Vec3.len v) :
    Vec3.dot (Vec3.sub (Vec3.smul (-c / Vec3.len v) v) (Vec3.smul (c / Vec3.len v) v))
      (Vec3.smul (1 / Vec3.len v) v) = -2 * c := by
  have hd := len_sq v
  have hdne : Vec3.len v ≠ 0 := ne_of_gt h0
  simp only [Vec3.dot, Vec3.sub, Vec3.smul]
  field_simp
  linear_combination (2 * c * Vec3.len v) * hd

/-- Modelled from the spec (§4.4 step 5), for refinement comparison: the
claimed update of `velocity_i` is `velocity_i -= j*n` with
`j = -(1 + restitution) * closingSpeed / 2`. -/
noncomputable def specImpulseVel1 (vel1 n : Vec3) (closingSpeed restitution : ℝ) : Vec3 :=
  Vec3.sub vel1 (Vec3.smul (-(1 + restitution) * closingSpeed / 2) n)

/-- Modelled from the spec (§4.4 step 5): `velocity_j += j*n`. -/
noncomputable def specImpulseVel2 (vel2 n : Vec3) (closingSpeed restitution : ℝ) : Vec3 :=
  Vec3.add vel2 (Vec3.smul (-(1 + restitution) * closingSpeed / 2) n)

/-- Counterexample to C3 on `Mind.handleCollision`: at the concrete
collision of `M3a`/`M3b` (normal `(1,0,0)`, closing speed `-0.2`,
`bounceStrength 0.9`), the code's velocity update `mindImpulseVel1` yields
`(-0.28, 0, 0)` — a velocity change of `(1+0.9)*closingSpeed`, twice the
claimed `j = -(1+0.9)*closingSpeed/2` which would yield `(-0.09, 0, 0)`;
in particular the pre-normalization result is not the swapped velocity
`(-0.1, 0, 0)` of the other body. -/
theorem C3_counterexample :
    mindImpulseVel1 M3a.velocity ⟨1, 0, 0⟩ (-0.2) = ⟨-0.28, 0, 0⟩ ∧
    specImpulseVel1 M3a.velocity ⟨1, 0, 0⟩ (-0.2) 0.9 = ⟨-0.09, 0, 0⟩ ∧
    mindImpulseVel1 M3a.velocity ⟨1, 0, 0⟩ (-0.2) ≠
      specImpulseVel1 M3a.velocity ⟨1, 0, 0⟩ (-0.2) 0.9 ∧
    mindImpulseVel1 M3a.velocity ⟨1, 0, 0⟩ (-0.2) ≠ M3b.velocity := by
  refine ⟨?_, ?_, ?_, ?_⟩
  · norm_num [mindImpulseVel1, Vec3.add, Vec3.smul, M3a]
  · norm_num [specImpulseVel1, Vec3.sub, Vec3.smul, M3a]
  · norm_num [mindImpulseVel1, specImpulseVel1, Vec3.add, Vec3.sub, Vec3.smul, M3a]
  · norm_num [mindImpulseVel1, Vec3.add, Vec3.smul, M3a, M3b]

/-- C3 (amended): the demo's pair resolution applies exactly the claimed
equal-mass impulse `j = -(1 + restitution) * closingSpeed / 2` with
`velocity_i -= j*n`, `velocity_j += j*n`, and with its restitution `1.0`
two bodies moving at equal and opposite velocities along the line of
centers have their velocities swapped exactly; `Mind.handleCollision`
instead changes each velocity by `(1 + 0.9) * closingSpeed * n`, i.e. it
applies twice the claimed impulse magnitude (with its restitution `0.9`),
so its pre-normalization result is not a swap. -/
theorem C3_pair_impulse :
    (∀ (a b : Ball),
      0 < Vec3.len (Vec3.sub b.pos a.pos) →
      Vec3.len (Vec3.sub b.pos a.pos) < demoBallRadius * 2 →
      Vec3.dot (Vec3.sub b.vel a.vel)
        (Vec3.smul (1 / Vec3.len (Vec3.sub b.pos a.pos)) (Vec3.sub b.pos a.pos)) < 0 →
      (demoPairCollide a b).1.vel =
        specImpulseVel1 a.vel
          (Vec3.smul (1 / Vec3.len (Vec3.sub b.pos a.pos)) (Vec3.sub b.pos a.pos))
          (Vec3.dot (Vec3.sub b.vel a.vel)
            (Vec3.smul (1 / Vec3.len (Vec3.sub b.pos a.pos)) (Vec3.sub b.pos a.pos)))
          demoRestitution ∧
      (demoPairCollide a b).2.vel =
        specImpulseVel2 b.vel
          (Vec3.smul (1 / Vec3.len (Vec3.sub b.pos a.pos)) (Vec3.sub b.pos a.pos))
          (Vec3.dot (Vec3.sub b.vel a.vel)
            (Vec3.smul (1 / Vec3.len (Vec3.sub b.pos a.pos)) (Vec3.sub b.pos a.pos)))
          demoRestitution) ∧
    (∀ (a b : Ball) (c : ℝ), 0 < c →
      0 < Vec3.len (Vec3.sub b.pos a.pos) →
      Vec3.len (Vec3.sub b.pos a.pos) < demoBallRadius * 2 →
      a.vel = Vec3.smul (c / Vec3.len (Vec3.sub b.pos a.pos)) (Vec3.sub b.pos a.pos) →
      b.vel = Vec3.smul (-c / Vec3.len (Vec3.sub b.pos a.pos)) (Vec3.sub b.pos a.pos) →
      (demoPairCollide a b).1.vel = b.vel ∧ (demoPairCollide a b).2.vel = a.vel) ∧
    (∀ (vel1 vel2 n : Vec3) (c : ℝ),
      mindImpulseVel1 vel1 n c = specImpulseVel1 vel1 n (2 * c) 0.9 ∧
      mindImpulseVel2 vel2 n c = specImpulseVel2 vel2 n (2 * c) 0.9) := by
  refine ⟨?_, ?_, ?_⟩
  · intro a b h0 hlt hrel
    rw [demoPair_imp a b h0 hlt hrel]
    constructor
    · show Vec3.add a.vel (Vec3.smul (-1)
        (Vec3.smul (-0.5 * (1 + demoRestitution) *
          Vec3.dot (Vec3.sub b.vel a.vel)
            (Vec3.smul (1 / Vec3.len (Vec3.sub b.pos a.pos)) (Vec3.sub b.pos a.pos)))
          (Vec3.smul (1 / Vec3.len (Vec3.sub b.pos a.pos)) (Vec3.sub b.pos a.pos)))) = _
      apply Vec3.ext <;>
        simp only [specImpulseVel1, Vec3.add, Vec3.sub, Vec3.smul] <;> ring
    · show Vec3.add b.vel
        (Vec3.smul (-0.5 * (1 + demoRestitution) *
          Vec3.dot (Vec3.sub b.vel a.vel)
            (Vec3.smul (1 / Vec3.len (Vec3.sub b.pos a.pos)) (Vec3.sub b.pos a.pos)))
          (Vec3.smul (1 / Vec3.len (Vec3.sub b.pos a.pos)) (Vec3.sub b.pos a.pos))) = _
      apply Vec3.ext <;>
        simp only [specImpulseVel2, Vec3.add, Vec3.sub, Vec3.smul] <;> ring
  · intro a b c hc h0 hlt hva hvb
    have hrel : Vec3.dot (Vec3.sub b.vel a.vel)
        (Vec3.smul (1 / Vec3.len (Vec3.sub b.pos a.pos)) (Vec3.sub b.pos a.pos)) = -2 * c := by
      rw [hva, hvb]
      exact dot_opposite_line (Vec3.sub b.pos a.pos) c h0
    have hrelneg : Vec3.dot (Vec3.sub b.vel a.vel)
        (Vec3.smul (1 / Vec3.len (Vec3.sub b.pos a.pos)) (Vec3.sub b.pos a.pos)) < 0 := by
      rw [hrel]
      linarith
    rw [demoPair_imp a b h0 hlt hrelneg]
    constructor
    · show Vec3.add a.vel (Vec3.smul (-1)
        (Vec3.smul (-0.5 * (1 + demoRestitution) *
          Vec3.dot (Vec3.sub b.vel a.vel)
            (Vec3.smul (1 / Vec3.len (Vec3.sub b.pos a.pos)) (Vec3.sub b.pos a.pos)))
          (Vec3.smul (1 / Vec3.len (Vec3.sub b.pos a.pos)) (Vec3.sub b.pos a.pos)))) = b.vel
      rw [hrel, hva, hvb]
      apply Vec3.ext <;>
        simp only [Vec3.add, Vec3.sub, Vec3.smul, demoRestitution] <;> ring
    · show Vec3.add b.vel
        (Vec3.smul (-0.5 * (1 + demoRestitution) *
          Vec3.dot (Vec3.sub b.vel a.vel)
            (Vec3.smul (1 / Vec3.len (Vec3.sub b.pos a.pos)) (Vec3.sub b.pos a.pos)))
          (Vec3.smul (1 / Vec3.len (Vec3.sub b.pos a.pos)) (Vec3.sub b.pos a.pos))) = a.vel
      rw [hrel, hva, hvb]
      apply Vec3.ext <;>
        simp only [Vec3.add, Vec3.sub, Vec3.smul, demoRestitution] <;> ring
  · intro vel1 vel2 n c
    constructor <;> apply Vec3.ext <;>
      simp only [mindImpulseVel1, mindImpulseVel2, specImpulseVel1, specImpulseVel2,
        Vec3.add, Vec3.sub, Vec3.smul] <;> ring

/-- First ball of a concrete overlapping, approaching demo pair. -/
noncomputable def B3a : Ball := ⟨⟨-0.05, 0, 0⟩, ⟨0.3, 0, 0⟩⟩

/-- Second ball of the concrete pair. -/
noncomputable def B3b : Ball := ⟨⟨0.05, 0, 0⟩, ⟨-0.3, 0, 0⟩⟩

lemma pairB_delta : Vec3.sub B3b.pos B3a.pos = ⟨0.1, 0, 0⟩ := by
  norm_num [Vec3.sub, B3a, B3b]

lemma pairB_len : Vec3.len (Vec3.sub B3b.pos B3a.pos) = 0.1 := by
  rw [pairB_delta]
  norm_num [lenX, abs_of_nonneg]

/-- Witness for C3 (amended): the concrete demo pair obeys the spec's
impulse formula and swaps velocities. -/
theorem C3_witness :
    ((demoPairCollide B3a B3b).1.vel =
      specImpulseVel1 B3a.vel
        (Vec3.smul (1 / Vec3.len (Vec3.sub B3b.pos B3a.pos)) (Vec3.sub B3b.pos B3a.pos))
        (Vec3.dot (Vec3.sub B3b.vel B3a.vel)
          (Vec3.smul (1 / Vec3.len (Vec3.sub B3b.pos B3a.pos)) (Vec3.sub B3b.pos B3a.pos)))
        demoRestitution ∧
     (demoPairCollide B3a B3b).2.vel =
      specImpulseVel2 B3b.vel
        (Vec3.smul (1 / Vec3.len (Vec3.sub B3b.pos B3a.pos)) (Vec3.sub B3b.pos B3a.pos))
        (Vec3.dot (Vec3.sub B3b.vel B3a.vel)
          (Vec3.smul (1 / Vec3.len (Vec3.sub B3b.pos B3a.pos)) (Vec3.sub B3b.pos B3a.pos)))
        demoRestitution) ∧
    ((demoPairCollide B3a B3b).1.vel = B3b.vel ∧ (demoPairCollide B3a B3b).2.vel = B3a.vel) :=
  ⟨C3_pair_impulse.1 B3a B3b
    (by rw [pairB_len]; norm_num)
    (by rw [pairB_len]; norm_num [demoBallRadius])
    (by
      rw [pairB_len, pairB_delta]
      norm_num [Vec3.dot, Vec3.sub, Vec3.smul, B3a, B3b]),
   C3_pair_impulse.2.1 B3a B3b 0.3 (by norm_num)
    (by rw [pairB_len]; norm_num)
    (by rw [pairB_len]; norm_num [demoBallRadius])
    (by
      rw [pairB_len, pairB_delta]
      norm_num [Vec3.smul, B3a])
    (by
      rw [pairB_len, pairB_delta]
      norm_num [Vec3.smul, B3b])⟩

/-! ## Claim C4 -/

/-- A mental exactly at the containment limit, moving inward (normal
component `-0.06 < 0`) with a tangential component (`0.08` along y). -/
noncomputable def M4 : Mental := ⟨⟨0.89, 0, 0⟩, ⟨-0.06, 0.08, 0⟩, 0.1, 0.1⟩

/-- State produced by `handleBoundaryCollision` on `M4`. -/
noncomputable def M4a : Mental := ⟨⟨0.89, 0, 0⟩, ⟨0, 0.1, 0⟩, 0.1, 0.1⟩

lemma run4 : handleBoundaryCollision 1 M4 rsHalf 0 = (M4a, 0) := by
  norm_num [handleBoundaryCollision, normalizeVelocityToMotionSpeed, M4, M4a, lenX, lenY,
    abs_of_nonneg, Vec3.dot, Vec3.sub, Vec3.smul, Vec3.mk.injEq]

/-- C4 fails on `Mind.handleBoundaryCollision`: for the mental `M4` at the
boundary with `vn = velocity · normal = -0.06 ≤ 0` (moving inward), the
else-branch replaces the velocity by its tangential component and then
re-normalizes, yielding `(0, 0.1, 0)` — not a positive multiple of the
incoming direction `(-0.06, 0.08, 0)`, so the velocity direction *is*
altered, contradicting both the claim and the code's own comment
("keep direction, and just re-normalize speed"). -/
theorem C4_boundary_inward_direction_changed :
    (handleBoundaryCollision 1 M4 rsHalf 0).1.velocity = ⟨0, 0.1, 0⟩ ∧
    Vec3.dot M4.velocity ⟨1, 0, 0⟩ ≤ 0 ∧
    ¬ ∃ c : ℝ, 0 < c ∧
      (handleBoundaryCollision 1 M4 rsHalf 0).1.velocity = Vec3.smul c M4.velocity := by
  refine ⟨by rw [run4]; rfl, by norm_num [Vec3.dot, M4], ?_⟩
  rintro ⟨c, hc, h⟩
  rw [run4] at h
  have hx : (0 : ℝ) = c * (-0.06) := congrArg Vec3.x h
  linarith

/-! ## Claim C5 -/

/-- C5: when the candidate (post-integration) position lies beyond the
limit, `Mind.updatePhysics` takes the outward unit normal from the
candidate position; with `vn = velocity · normal > 0` the velocity passed
to the speed re-normalization is `velocity - (1 + 0.95) * vn * normal`
(bounce strength `0.95 ∈ [0.9, 1.0]`), and the committed position is set
to exactly the limit along that normal, never left outside. -/
theorem C5_boundary_reflect_clamp (scale deltaTime : ℝ) (m : Mental) (rs : RandStream)
    (k : ℕ) (m' : Mental) (k' : ℕ)
    (hs : 0 < scale)
    (hn : normalizeVelocityToMotionSpeed m rs k = (m', k'))
    (hout : scale - m'.radius * scale - 0.01 <
      Vec3.len ⟨(integratePos (deltaTime * 60) m'.position m'.velocity).x * scale,
        (integratePos (deltaTime * 60) m'.position m'.velocity).y * scale,
        (integratePos (deltaTime * 60) m'.position m'.velocity).z * scale⟩)
    (hnl : 0 < Vec3.len (integratePos (deltaTime * 60) m'.position m'.velocity))
    (hdot : 0 < m'.velocity.x *
        ((integratePos (deltaTime * 60) m'.position m'.velocity).x /
          Vec3.len (integratePos (deltaTime * 60) m'.position m'.velocity)) +
      m'.velocity.y *
        ((integratePos (deltaTime * 60) m'.position m'.velocity).y /
          Vec3.len (integratePos (deltaTime * 60) m'.position m'.velocity)) +
      m'.velocity.z *
        ((integratePos (deltaTime * 60) m'.position m'.velocity).z /
          Vec3.len (integratePos (deltaTime * 60) m'.position m'.velocity)))
    (hlim : 0 ≤ scale - m'.radius * scale - 0.01) :
    (integrateMental scale deltaTime m rs k).1.position =
      ⟨(integratePos (deltaTime * 60) m'.position m'.velocity).x /
          Vec3.len (integratePos (deltaTime * 60) m'.position m'.velocity) *
          ((scale - m'.radius * scale - 0.01) / scale),
       (integratePos (deltaTime * 60) m'.position m'.velocity).y /
          Vec3.len (integratePos (deltaTime * 60) m'.position m'.velocity) *
          ((scale - m'.radius * scale - 0.01) / scale),
       (integratePos (deltaTime * 60) m'.position m'.velocity).z /
          Vec3.len (integratePos (deltaTime * 60) m'.position m'.velocity) *
          ((scale - m'.radius * scale - 0.01) / scale)⟩ ∧
    Vec3.len (integrateMental scale deltaTime m rs k).1.position * scale =
      scale - m'.radius * scale - 0.01 ∧
    (integrateMental scale deltaTime m rs k).1.velocity =
      (normalizeVelocityToMotionSpeed
        { m' with velocity :=
            ⟨m'.velocity.x - (1 + 0.95) *
                (m'.velocity.x *
                  ((integratePos (deltaTime * 60) m'.position m'.velocity).x /
                    Vec3.len (integratePos (deltaTime * 60) m'.position m'.velocity)) +
                 m'.velocity.y *
                  ((integratePos (deltaTime * 60) m'.position m'.velocity).y /
                    Vec3.len (integratePos (deltaTime * 60) m'.position m'.velocity)) +
                 m'.velocity.z *
                  ((integratePos (deltaTime * 60) m'.position m'.velocity).z /
                    Vec3.len (integratePos (deltaTime * 60) m'.position m'.velocity))) *
                ((integratePos (deltaTime * 60) m'.position m'.velocity).x /
                  Vec3.len (integratePos (deltaTime * 60) m'.position m'.velocity)),
             m'.velocity.y - (1 + 0.95) *
                (m'.velocity.x *
                  ((integratePos (deltaTime * 60) m'.position m'.velocity).x /
                    Vec3.len (integratePos (deltaTime * 60) m'.position m'.velocity)) +
                 m'.velocity.y *
                  ((integratePos (deltaTime * 60) m'.position m'.velocity).y /
                    Vec3.len (integratePos (deltaTime * 60) m'.position m'.velocity)) +
                 m'.velocity.z *
                  ((integratePos (deltaTime * 60) m'.position m'.velocity).z /
                    Vec3.len (integratePos (deltaTime * 60) m'.position m'.velocity))) *
                ((integratePos (deltaTime * 60) m'.position m'.velocity).y /
                  Vec3.len (integratePos (deltaTime * 60) m'.position m'.velocity)),
             m'.velocity.z - (1 + 0.95) *
                (m'.velocity.x *
                  ((integratePos (deltaTime * 60) m'.position m'.velocity).x /
                    Vec3.len (integratePos (deltaTime * 60) m'.position m'.velocity)) +
                 m'.velocity.y *
                  ((integratePos (deltaTime * 60) m'.position m'.velocity).y /
                    Vec3.len (integratePos (deltaTime * 60) m'.position m'.velocity)) +
                 m'.velocity.z *
                  ((integratePos (deltaTime * 60) m'.position m'.velocity).z /
                    Vec3.len (integratePos (deltaTime * 60) m'.position m'.velocity))) *
                ((integratePos (deltaTime * 60) m'.position m'.velocity).z /
                  Vec3.len (integratePos (deltaTime * 60) m'.position m'.velocity))⟩ }
        rs k').1.velocity ∧
    ((0.9 : ℝ) ≤ 0.95 ∧ (0.95 : ℝ) ≤ 1) := by
  simp only [integrateMental, hn]
  rw [if_pos hout]
  simp only [if_pos hnl]
  rw [if_pos hdot]
  refine ⟨trivial, ?_, rfl, by norm_num, by norm_num⟩
  show Vec3.len
      ⟨(integratePos (deltaTime * 60) m'.position m'.velocity).x /
          Vec3.len (integratePos (deltaTime * 60) m'.position m'.velocity) *
          ((scale - m'.radius * scale - 0.01) / scale),
       (integratePos (deltaTime * 60) m'.position m'.velocity).y /
          Vec3.len (integratePos (deltaTime * 60) m'.position m'.velocity) *
          ((scale - m'.radius * scale - 0.01) / scale),
       (integratePos (deltaTime * 60) m'.position m'.velocity).z /
          Vec3.len (integratePos (deltaTime * 60) m'.position m'.velocity) *
          ((scale - m'.radius * scale - 0.01) / scale)⟩ * scale =
    scale - m'.radius * scale - 0.01
  rw [len_mul_right, len_normalized _ hnl, mul_one,
    abs_of_nonneg (div_nonneg hlim hs.le), div_mul_cancel₀ _ (ne_of_gt hs)]

/-- A mental just inside the boundary heading outward. -/
noncomputable def Mc5 : Mental := ⟨⟨0.88, 0, 0⟩, ⟨0.1, 0, 0⟩, 0.1, 0.1⟩

lemma run5_norm : normalizeVelocityToMotionSpeed Mc5 rsHalf 0 = (Mc5, 0) := by
  apply normalize_id
  · show Vec3.len ⟨0.1, 0, 0⟩ = Mc5.motionSpeed
    norm_num [lenX, abs_of_nonneg, Mc5]
  · norm_num [Mc5]

lemma run5_next : integratePos (0.016 * 60) Mc5.position Mc5.velocity = ⟨0.976, 0, 0⟩ := by
  show (⟨0.88 + 0.1 * (0.016 * 60), 0 + 0 * (0.016 * 60), 0 + 0 * (0.016 * 60)⟩ : Vec3) = _
  norm_num

/-- Witness for C5: the concrete outward-moving mental is clamped to
exactly the limit. -/
theorem C5_witness :
    Vec3.len (integrateMental 1 0.016 Mc5 rsHalf 0).1.position * 1 =
      1 - Mc5.radius * 1 - 0.01 ∧ (0.9 : ℝ) ≤ 0.95 :=
  ⟨(C5_boundary_reflect_clamp 1 0.016 Mc5 rsHalf 0 Mc5 0 (by norm_num) run5_norm
      (by
        rw [run5_next]
        show (1 : ℝ) - Mc5.radius * 1 - 0.01 < Vec3.len ⟨0.976 * 1, 0 * 1, 0 * 1⟩
        norm_num [lenX, abs_of_nonneg, Mc5])
      (by
        rw [run5_next]
        norm_num [lenX, abs_of_nonneg])
      (by
        rw [run5_next]
        show (0 : ℝ) < Mc5.velocity.x * ((⟨0.976, 0, 0⟩ : Vec3).x / Vec3.len ⟨0.976, 0, 0⟩) +
          Mc5.velocity.y * ((⟨0.976, 0, 0⟩ : Vec3).y / Vec3.len ⟨0.976, 0, 0⟩) +
          Mc5.velocity.z * ((⟨0.976, 0, 0⟩ : Vec3).z / Vec3.len ⟨0.976, 0, 0⟩)
        norm_num [lenX, abs_of_nonneg, Mc5])
      (by norm_num [Mc5])).2.1,
   by norm_num⟩

/-! ## Claim C1 -/

/-- Overlapping-but-not-approaching branch of the demo pair collision:
positions separated, velocities untouched. -/
lemma demoPair_sep (a b : Ball)
    (h0 : 0 < Vec3.len (Vec3.sub b.pos a.pos))
    (hlt : Vec3.len (Vec3.sub b.pos a.pos) < demoBallRadius * 2)
    (hrel : ¬ (Vec3.dot (Vec3.sub b.vel a.vel)
      (Vec3.smul (1 / Vec3.len (Vec3.sub b.pos a.pos)) (Vec3.sub b.pos a.pos)) < 0)) :
    demoPairCollide a b =
      (⟨Vec3.add a.pos
          (Vec3.smul (-((demoBallRadius * 2 - Vec3.len (Vec3.sub b.pos a.pos)) * 0.5))
            (Vec3.smul (1 / Vec3.len (Vec3.sub b.pos a.pos)) (Vec3.sub b.pos a.pos))),
        a.vel⟩,
       ⟨Vec3.add b.pos
          (Vec3.smul ((demoBallRadius * 2 - Vec3.len (Vec3.sub b.pos a.pos)) * 0.5)
            (Vec3.smul (1 / Vec3.len (Vec3.sub b.pos a.pos)) (Vec3.sub b.pos a.pos))),
        b.vel⟩) := by
  simp only [demoPairCollide]
  rw [if_pos ⟨h0, hlt⟩, if_neg hrel]

/-- C1 (amended): after `Mind.updatePhysics`, the containment invariant
holds for every body small enough that the standard clamp margin applies
(`mentalRadius + 0.005 ≤ mindRadius - mentalRadius - 0.01`): the final
constrain pass guarantees `|position| * scale ≤ 1*scale - radius*scale`
(with `0.01` to spare); for larger bodies `constrainMentalPosition`
clamps to `mentalRadius + 0.005`, which can exceed the containment limit.
In the demo's per-frame step, containment holds after each ball's *wall
phase* (`demoBallUpdate` always leaves
`|position| ≤ containerRadius - ballRadius`), but not after the completed
step: the pairwise separation runs after the wall clamp with no re-clamp
(see the counterexample for both violations). -/
theorem C1_containment :
    (∀ (scale deltaTime : ℝ) (ms : List Mental) (rs : RandStream) (k : ℕ),
      0 < scale → (∀ n, 0 ≤ rs n ∧ rs n ≤ 1) →
      ∀ m' : Mental, m' ∈ (updatePhysics scale deltaTime ms rs k).1 →
      0 ≤ m'.radius →
      m'.radius * scale + 0.005 ≤ scale - m'.radius * scale - 0.01 →
      Vec3.len m'.position * scale ≤ 1 * scale - m'.radius * scale) ∧
    (∀ (dt : ℝ) (b : Ball) (rs : RandStream) (k : ℕ),
      Vec3.len (demoBallUpdate dt b rs k).1.pos ≤ demoContainerRadius - demoBallRadius) := by
  constructor
  · intro scale deltaTime ms rs k hs hrs m' hm hr hsmall
    obtain ⟨z, k1, hz⟩ := updatePhysics_mem scale deltaTime ms rs k m' hm
    have hpos : m'.position = (constrainMentalPosition scale z rs k1).1.position := by
      rw [hz]
      exact (normalize_fields _ rs _).1
    have hrad : m'.radius = z.radius := by
      rw [hz, (normalize_fields _ rs _).2.1, (constrain_fields scale z rs k1).2.1]
    have hb := constrain_bound scale z rs k1 hs (hrad ▸ hr) (hrs k1).1 (hrs k1).2
    rw [hpos, hrad]
    rw [hrad] at hsmall
    calc Vec3.len (constrainMentalPosition scale z rs k1).1.position * scale
        ≤ max (z.radius * scale + 0.005) (scale - z.radius * scale - 0.01) := hb
      _ = scale - z.radius * scale - 0.01 := max_eq_right hsmall
      _ ≤ 1 * scale - z.radius * scale := by linarith
  · intro dt b rs k
    have hlim : (0 : ℝ) < demoContainerRadius - demoBallRadius := by
      norm_num [demoContainerRadius, demoBallRadius]
    simp only [demoBallUpdate]
    rcases lt_or_le (demoContainerRadius - demoBallRadius)
      (Vec3.len (Vec3.add b.pos (Vec3.smul dt (demoClampSpeed b.vel rs k).1))) with h | h
    · rw [if_pos h]
      show Vec3.len (Vec3.smul (demoContainerRadius - demoBallRadius)
        (threeNormalize (Vec3.add b.pos (Vec3.smul dt (demoClampSpeed b.vel rs k).1)))) ≤
        demoContainerRadius - demoBallRadius
      rw [len_smul, threeNormalize_len _ (ne_of_gt (lt_trans hlim h)), mul_one,
        abs_of_nonneg hlim.le]
    · rw [if_neg (not_lt.mpr h)]
      exact h

/-- Witness for C1 (amended): the Mind part on the concrete single-mental
run, and the demo wall-phase bound on a concrete ball. -/
theorem C1_witness :
    (Vec3.len Msa.position * 1 ≤ 1 * 1 - Msa.radius * 1) ∧
    Vec3.len (demoBallUpdate 0.016 B3a rsHalf 0).1.pos ≤
      demoContainerRadius - demoBallRadius :=
  ⟨C1_containment.1 1 0.016 [Ms] rsHalf 0 (by norm_num)
      (fun n => ⟨by norm_num [rsHalf], by norm_num [rsHalf]⟩) Msa
      (by rw [run_s]; exact List.mem_singleton_self Msa)
      (by norm_num [Msa]) (by norm_num [Msa]),
   C1_containment.2 0.016 B3a rsHalf 0⟩

/-- First of two large mentals (radius 0.6 in a scale-1 mind). -/
noncomputable def Mb1 : Mental := ⟨⟨-0.3, 0, 0⟩, ⟨0, 0, 0⟩, 0.6, 0⟩

/-- Second large mental, overlapping the first. -/
noncomputable def Mb2 : Mental := ⟨⟨0.05, 0, 0⟩, ⟨0, 0, 0⟩, 0.6, 0⟩

/-- `Mb1` after the pairwise separation push. -/
noncomputable def Mb1m : Mental := ⟨⟨-0.725, 0, 0⟩, ⟨0, 0, 0⟩, 0.6, 0⟩

/-- `Mb2` after the pairwise separation push. -/
noncomputable def Mb2m : Mental := ⟨⟨0.475, 0, 0⟩, ⟨0, 0, 0⟩, 0.6, 0⟩

/-- `Mb1m` after the final constrain pass (clamped to `0.605`). -/
noncomputable def Mb1f : Mental := ⟨⟨-0.605, 0, 0⟩, ⟨0, 0, 0⟩, 0.6, 0⟩

lemma run_b_delta : Vec3.sub Mb2.position Mb1.position = ⟨0.35, 0, 0⟩ := by
  norm_num [Vec3.sub, Mb1, Mb2]

lemma run_b_dlen : Vec3.len (Vec3.sub Mb2.position Mb1.position) = 0.35 := by
  rw [run_b_delta]
  norm_num [lenX, abs_of_nonneg]

lemma run_b_n1 : normalizeVelocityToMotionSpeed Mb1 rsHalf 0 = (Mb1, 0) := by
  apply normalize_zero_branch
  · show Vec3.len ⟨0, 0, 0⟩ = 0
    exact len_zero
  · rfl

lemma run_b_n2 : normalizeVelocityToMotionSpeed Mb2 rsHalf 0 = (Mb2, 0) := by
  apply normalize_zero_branch
  · show Vec3.len ⟨0, 0, 0⟩ = 0
    exact len_zero
  · rfl

lemma run_b_i1 : integrateMental 1 0.016 Mb1 rsHalf 0 = (Mb1, 0) := by
  have hip : integratePos (0.016 * 60) Mb1.position Mb1.velocity = ⟨-0.3, 0, 0⟩ := by
    show (⟨-0.3 + 0 * (0.016 * 60), 0 + 0 * (0.016 * 60), 0 + 0 * (0.016 * 60)⟩ : Vec3) = _
    norm_num
  have hin : ¬ ((1 : ℝ) - Mb1.radius * 1 - 0.01 <
      Vec3.len ⟨(integratePos (0.016 * 60) Mb1.position Mb1.velocity).x * 1,
        (integratePos (0.016 * 60) Mb1.position Mb1.velocity).y * 1,
        (integratePos (0.016 * 60) Mb1.position Mb1.velocity).z * 1⟩) := by
    rw [hip]
    show ¬ ((1 : ℝ) - 0.6 * 1 - 0.01 < Vec3.len ⟨-0.3 * 1, 0 * 1, 0 * 1⟩)
    norm_num [lenX, abs_of_nonneg, abs_of_nonpos]
  rw [integrate_inside 1 0.016 Mb1 rsHalf 0 Mb1 0 run_b_n1 hin, hip]
  rfl

lemma run_b_i2 : integrateMental 1 0.016 Mb2 rsHalf 0 = (Mb2, 0) := by
  have hip : integratePos (0.016 * 60) Mb2.position Mb2.velocity = ⟨0.05, 0, 0⟩ := by
    show (⟨0.05 + 0 * (0.016 * 60), 0 + 0 * (0.016 * 60), 0 + 0 * (0.016 * 60)⟩ : Vec3) = _
    norm_num
  have hin : ¬ ((1 : ℝ) - Mb2.radius * 1 - 0.01 <
      Vec3.len ⟨(integratePos (0.016 * 60) Mb2.position Mb2.velocity).x * 1,
        (integratePos (0.016 * 60) Mb2.position Mb2.velocity).y * 1,
        (integratePos (0.016 * 60) Mb2.position Mb2.velocity).z * 1⟩) := by
    rw [hip]
    show ¬ ((1 : ℝ) - 0.6 * 1 - 0.01 < Vec3.len ⟨0.05 * 1, 0 * 1, 0 * 1⟩)
    norm_num [lenX, abs_of_nonneg]
  rw [integrate_inside 1 0.016 Mb2 rsHalf 0 Mb2 0 run_b_n2 hin, hip]
  rfl

lemma run_b_hc : handleCollision Mb1 Mb2 rsHalf 0 = (Mb1m, Mb2m, 0) := by
  rw [handleCollision_sep Mb1 Mb2 rsHalf 0
    (by rw [run_b_dlen]; norm_num [Mb1, Mb2])
    (by rw [run_b_dlen]; norm_num)
    (by
      rw [run_b_dlen, run_b_delta]
      norm_num [Vec3.dot, Vec3.sub, Vec3.smul, Mb1, Mb2])]
  rw [run_b_dlen, run_b_delta]
  norm_num [Vec3.sub, Vec3.add, Vec3.smul, Mb1, Mb2, Mb1m, Mb2m]

lemma run_b_ca : constrainMentalPosition 1 Mb1m rsHalf 0 = (Mb1f, 0) := by
  rw [constrain_clamp 1 Mb1m rsHalf 0
    (by
      show max ((0.6 : ℝ) * 1 + 0.005) (1 - 0.6 * 1 - 0.01) <
        Vec3.len ⟨-0.725 * 1, 0 * 1, 0 * 1⟩
      norm_num [lenX, abs_of_nonpos, max_def])
    (by
      show (0 : ℝ) < Vec3.len ⟨-0.725 * 1, 0 * 1, 0 * 1⟩
      norm_num [lenX, abs_of_nonpos])
    (by
      show (0 : ℝ) < Vec3.len ⟨-0.725, 0, 0⟩
      norm_num [lenX, abs_of_nonpos])]
  have hl : Vec3.len Mb1m.position = 0.725 := by
    show Vec3.len ⟨-0.725, 0, 0⟩ = 0.725
    norm_num [lenX, abs_of_nonpos]
  rw [hl]
  norm_num [Mb1m, Mb1f, max_def]

lemma run_b_cb : constrainMentalPosition 1 Mb2m rsHalf 0 = (Mb2m, 0) := by
  apply constrain_untouched
  · show Vec3.len ⟨0.475 * 1, 0 * 1, 0 * 1⟩ ≤ max (0.6 * 1 + 0.005) (1 - 0.6 * 1 - 0.01)
    norm_num [lenX, abs_of_nonneg, max_def]
  · show Vec3.len ⟨0.475 * 1, 0 * 1, 0 * 1⟩ ≠ 0
    norm_num [lenX, abs_of_nonneg]

lemma run_b_na : normalizeVelocityToMotionSpeed Mb1f rsHalf 0 = (Mb1f, 0) := by
  apply normalize_zero_branch
  · show Vec3.len ⟨0, 0, 0⟩ = 0
    exact len_zero
  · rfl

lemma run_b_nb : normalizeVelocityToMotionSpeed Mb2m rsHalf 0 = (Mb2m, 0) := by
  apply normalize_zero_branch
  · show Vec3.len ⟨0, 0, 0⟩ = 0
    exact len_zero
  · rfl

lemma run_b : updatePhysics 1 0.016 [Mb1, Mb2] rsHalf 0 = ([Mb1f, Mb2m], 0) := by
  rw [updatePhysics_two]
  simp only [run_b_i1, run_b_i2, run_b_hc, run_b_ca, run_b_cb, run_b_na, run_b_nb]

/-- First ball of the demo pair that overlaps near the wall. -/
noncomputable def B1c : Ball := ⟨⟨0.78, -0.0048, 0⟩, ⟨0, 0.3, 0⟩⟩

/-- Second ball, overlapping the first, just inside the wall. -/
noncomputable def B2c : Ball := ⟨⟨0.83, -0.0048, 0⟩, ⟨0, 0.3, 0⟩⟩

/-- `B1c` after the integration/wall phase. -/
noncomputable def B1ci : Ball := ⟨⟨0.78, 0, 0⟩, ⟨0, 0.3, 0⟩⟩

/-- `B2c` after the integration/wall phase (still inside the limit). -/
noncomputable def B2ci : Ball := ⟨⟨0.83, 0, 0⟩, ⟨0, 0.3, 0⟩⟩

/-- `B1c` after the pair separation. -/
noncomputable def B1cf : Ball := ⟨⟨0.745, 0, 0⟩, ⟨0, 0.3, 0⟩⟩

/-- `B2c` after the pair separation: pushed to `0.865 > 0.84`. -/
noncomputable def B2cf : Ball := ⟨⟨0.865, 0, 0⟩, ⟨0, 0.3, 0⟩⟩

lemma run_c_clampa : demoClampSpeed B1c.vel rsHalf 0 = (B1c.vel, 0) := by
  apply demoClamp_mid
  · show ¬ demoMaxSpeed < Vec3.len ⟨0, 0.3, 0⟩
    rw [lenY]
    norm_num [demoMaxSpeed, abs_of_nonneg]
  · show ¬ Vec3.len ⟨0, 0.3, 0⟩ < demoMinSpeed
    rw [lenY]
    norm_num [demoMinSpeed, abs_of_nonneg]

lemma run_c_clampb : demoClampSpeed B2c.vel rsHalf 0 = (B2c.vel, 0) := by
  apply demoClamp_mid
  · show ¬ demoMaxSpeed < Vec3.len ⟨0, 0.3, 0⟩
    rw [lenY]
    norm_num [demoMaxSpeed, abs_of_nonneg]
  · show ¬ Vec3.len ⟨0, 0.3, 0⟩ < demoMinSpeed
    rw [lenY]
    norm_num [demoMinSpeed, abs_of_nonneg]

lemma run_c_balla : demoBallUpdate 0.016 B1c rsHalf 0 = (B1ci, 0) := by
  have hadd : Vec3.add B1c.pos (Vec3.smul 0.016 B1c.vel) = ⟨0.78, 0, 0⟩ := by
    norm_num [Vec3.add, Vec3.smul, B1c]
  rw [demoBall_noWall 0.016 B1c rsHalf 0 B1c.vel 0 run_c_clampa
    (by
      rw [hadd]
      show ¬ (demoContainerRadius - demoBallRadius < Vec3.len ⟨0.78, 0, 0⟩)
      rw [lenX]
      norm_num [demoContainerRadius, demoBallRadius, abs_of_nonneg]), hadd]
  rfl

lemma run_c_ballb : demoBallUpdate 0.016 B2c rsHalf 0 = (B2ci, 0) := by
  have hadd : Vec3.add B2c.pos (Vec3.smul 0.016 B2c.vel) = ⟨0.83, 0, 0⟩ := by
    norm_num [Vec3.add, Vec3.smul, B2c]
  rw [demoBall_noWall 0.016 B2c rsHalf 0 B2c.vel 0 run_c_clampb
    (by
      rw [hadd]
      show ¬ (demoContainerRadius - demoBallRadius < Vec3.len ⟨0.83, 0, 0⟩)
      rw [lenX]
      norm_num [demoContainerRadius, demoBallRadius, abs_of_nonneg]), hadd]
  rfl

lemma run_c_delta : Vec3.sub B2ci.pos B1ci.pos = ⟨0.05, 0, 0⟩ := by
  norm_num [Vec3.sub, B1ci, B2ci]

lemma run_c_dlen : Vec3.len (Vec3.sub B2ci.pos B1ci.pos) = 0.05 := by
  rw [run_c_delta]
  norm_num [lenX, abs_of_nonneg]

lemma run_c_pair : demoPairCollide B1ci B2ci = (B1cf, B2cf) := by
  rw [demoPair_sep B1ci B2ci
    (by rw [run_c_dlen]; norm_num)
    (by rw [run_c_dlen]; norm_num [demoBallRadius])
    (by
      rw [run_c_dlen, run_c_delta]
      norm_num [Vec3.dot, Vec3.sub, Vec3.smul, B1ci, B2ci])]
  rw [run_c_dlen, run_c_delta]
  norm_num [Vec3.add, Vec3.smul, demoBallRadius, B1ci, B2ci, B1cf, B2cf]

lemma run_c : demoStep 0.016 [B1c, B2c] rsHalf 0 = ([B1cf, B2cf], 0) := by
  rw [demoStep_two]
  rw [show min (0.016 : ℝ) 0.033 = 0.016 from by norm_num]
  simp only [run_c_balla, run_c_ballb, run_c_pair]

/-- Counterexample to C1 as stated, on both code paths it covers.
Mind: in a scale-1 mind, two stationary mentals of radius `0.6` starting
at `(-0.3,0,0)` and `(0.05,0,0)` are pushed apart by the pairwise
separation; after the full `updatePhysics` step they sit at distances
`0.605` and `0.475` from the center, both exceeding the claimed bound
`boundary.radius*scale - body.radius*scale = 0.4` (the final clamp target
is `max(mentalRadius + 0.005, mindRadius - mentalRadius - 0.01) = 0.605`,
not the containment limit).  Demo: two balls overlapping just inside the
wall (`0.78` and `0.83`, speeds `0.3` in band, no wall contact, no
impulse) are separated by the pair loop, which runs *after* the wall
clamp with no re-clamp, leaving one ball at `0.865 > 0.84 =
containerRadius - ballRadius` at the end of the completed step.  Both
violations far exceed the `1e-4` tolerance. -/
theorem C1_counterexample :
    ((updatePhysics 1 0.016 [Mb1, Mb2] rsHalf 0).1 = [Mb1f, Mb2m] ∧
     ¬ (Vec3.len Mb1f.position * 1 ≤ 1 * 1 - Mb1f.radius * 1 + 0.0001) ∧
     ¬ (Vec3.len Mb2m.position * 1 ≤ 1 * 1 - Mb2m.radius * 1 + 0.0001)) ∧
    ((demoStep 0.016 [B1c, B2c] rsHalf 0).1 = [B1cf, B2cf] ∧
     ¬ (Vec3.len B2cf.pos ≤ demoContainerRadius - demoBallRadius + 0.0001)) := by
  refine ⟨⟨by rw [run_b], ?_, ?_⟩, by rw [run_c], ?_⟩
  · show ¬ (Vec3.len ⟨-0.605, 0, 0⟩ * 1 ≤ 1 * 1 - 0.6 * 1 + 0.0001)
    norm_num [lenX, abs_of_nonpos]
  · show ¬ (Vec3.len ⟨0.475, 0, 0⟩ * 1 ≤ 1 * 1 - 0.6 * 1 + 0.0001)
    norm_num [lenX, abs_of_nonneg]
  · show ¬ (Vec3.len ⟨0.865, 0, 0⟩ ≤ demoContainerRadius - demoBallRadius + 0.0001)
    rw [lenX]
    norm_num [demoContainerRadius, demoBallRadius, abs_of_nonneg]

/-! ## Claim C7 -/

/-- C7 (amended): `addMental` stores the constrained mental (push, then
constrain in place), and for a body small enough that the standard margin
applies (`mentalRadius + 0.005 ≤ mindRadius - mentalRadius - 0.01`) the
containment invariant holds immediately after insertion.  For larger
bodies the immediate clamp target `mentalRadius + 0.005` can exceed the
containment limit (see the counterexample). -/
theorem C7_add_reclamps (scale : ℝ) (ms : List Mental) (m : Mental) (rs : RandStream) (k : ℕ)
    (hs : 0 < scale) (hr : 0 ≤ m.radius) (h0 : 0 ≤ rs k) (h1 : rs k ≤ 1)
    (hsmall : m.radius * scale + 0.005 ≤ scale - m.radius * scale - 0.01) :
    (addMental scale ms m rs k).1 = ms ++ [(constrainMentalPosition scale m rs k).1] ∧
    Vec3.len (constrainMentalPosition scale m rs k).1.position * scale ≤
      1 * scale - m.radius * scale := by
  refine ⟨rfl, ?_⟩
  calc Vec3.len (constrainMentalPosition scale m rs k).1.position * scale
      ≤ max (m.radius * scale + 0.005) (scale - m.radius * scale - 0.01) :=
        constrain_bound scale m rs k hs hr h0 h1
    _ = scale - m.radius * scale - 0.01 := max_eq_right hsmall
    _ ≤ 1 * scale - m.radius * scale := by linarith

/-- Witness for C7 (amended) at a small mental. -/
theorem C7_witness :
    (addMental 1 [] Ms rsHalf 0).1 = [] ++ [(constrainMentalPosition 1 Ms rsHalf 0).1] ∧
    Vec3.len (constrainMentalPosition 1 Ms rsHalf 0).1.position * 1 ≤
      1 * 1 - Ms.radius * 1 :=
  C7_add_reclamps 1 [] Ms rsHalf 0 (by norm_num) (by norm_num [Ms])
    (by norm_num [rsHalf]) (by norm_num [rsHalf]) (by norm_num [Ms])

/-- A large mental supplied far outside the boundary. -/
noncomputable def M7 : Mental := ⟨⟨5, 0, 0⟩, ⟨0, 0, 0⟩, 0.6, 0⟩

/-- Where `addMental` actually places `M7` (distance `0.605`). -/
noncomputable def M7f : Mental := ⟨⟨0.605, 0, 0⟩, ⟨0, 0, 0⟩, 0.6, 0⟩

lemma run7 : addMental 1 [] M7 rsHalf 0 = ([M7f], 0) := by
  simp only [addMental]
  rw [constrain_clamp 1 M7 rsHalf 0
    (by
      show max ((0.6 : ℝ) * 1 + 0.005) (1 - 0.6 * 1 - 0.01) <
        Vec3.len ⟨5 * 1, 0 * 1, 0 * 1⟩
      norm_num [lenX, abs_of_nonneg, max_def])
    (by
      show (0 : ℝ) < Vec3.len ⟨5 * 1, 0 * 1, 0 * 1⟩
      norm_num [lenX, abs_of_nonneg])
    (by
      show (0 : ℝ) < Vec3.len ⟨5, 0, 0⟩
      norm_num [lenX, abs_of_nonneg])]
  have hl : Vec3.len M7.position = 5 := by
    show Vec3.len ⟨5, 0, 0⟩ = 5
    norm_num [lenX, abs_of_nonneg]
  rw [hl]
  norm_num [M7, M7f, max_def]

/-- Counterexample to C7 as stated: `addMental` on a radius-`0.6` mental
supplied at `(5,0,0)` immediately clamps it to distance `0.605` — outside
the containment limit `1*scale - 0.6*scale = 0.4`, beyond any `1e-4`
tolerance, because `constrainMentalPosition`'s clamp target is
`max(mentalRadius + 0.005, mindRadius - mentalRadius - 0.01) = 0.605`. -/
theorem C7_counterexample :
    (addMental 1 [] M7 rsHalf 0).1 = [M7f] ∧
    ¬ (Vec3.len M7f.position * 1 ≤ 1 * 1 - M7f.radius * 1 + 0.0001) := by
  refine ⟨by rw [run7], ?_⟩
  show ¬ (Vec3.len ⟨0.605, 0, 0⟩ * 1 ≤ 1 * 1 - 0.6 * 1 + 0.0001)
  norm_num [lenX, abs_of_nonneg]

/-! ## Claim C6 -/

/-- A multi-step run of the simulation: fold `updatePhysics` over a list
of per-frame `dt` values, threading the body list and the random cursor. -/
noncomputable def runSim (scale : ℝ) (dts : List ℝ) (ms : List Mental) (rs : RandStream)
    (k : ℕ) : List Mental × ℕ :=
  dts.foldl (fun st dt => updatePhysics scale dt st.1 rs st.2) (ms, k)

/-- C6 (amended): the simulation is a pure function of the initial states,
the `dt` sequence and the random stream — two runs over the same `dt`
sequence with pointwise-equal random streams produce identical
trajectories. -/
theorem C6_determinism (scale : ℝ) (dts : List ℝ) (ms : List Mental)
    (rs1 rs2 : RandStream) (k : ℕ) (h : ∀ n, rs1 n = rs2 n) :
    runSim scale dts ms rs1 k = runSim scale dts ms rs2 k := by
  have hrs : rs1 = rs2 := funext h
  rw [hrs]

/-- A second constant stream, pointwise equal to `rsHalf`. -/
noncomputable def rsHalf2 : RandStream := fun _ => 2 / 4

/-- Witness for C6 (amended). -/
theorem C6_witness :
    runSim 1 [0.016] [Mz] rsHalf 0 = runSim 1 [0.016] [Mz] rsHalf2 0 :=
  C6_determinism 1 [0.016] [Mz] rsHalf rsHalf2 0
    (fun n => by norm_num [rsHalf, rsHalf2])

/-- A mental that lands exactly at the center after integration. -/
noncomputable def M6 : Mental := ⟨⟨-0.096, 0, 0⟩, ⟨0.1, 0, 0⟩, 0.1, 0.1⟩

/-- Output of the `rsZero` run (center re-placement draws radius `0`). -/
noncomputable def M6z : Mental := ⟨⟨0, 0, 0⟩, ⟨0.1, 0, 0⟩, 0.1, 0.1⟩

/-- Output of the `rsHalf` run (center re-placement at `(-0.1335,0,0)`). -/
noncomputable def M6h : Mental := ⟨⟨-0.1335, 0, 0⟩, ⟨0.1, 0, 0⟩, 0.1, 0.1⟩

lemma run6_norm (rs : RandStream) (k : ℕ) :
    normalizeVelocityToMotionSpeed M6 rs k = (M6, k) := by
  apply normalize_id
  · show Vec3.len ⟨0.1, 0, 0⟩ = M6.motionSpeed
    norm_num [lenX, abs_of_nonneg, M6]
  · norm_num [M6]

lemma run6_int (rs : RandStream) : integrateMental 1 0.016 M6 rs 0 = (M6z, 0) := by
  have hip : integratePos (0.016 * 60) M6.position M6.velocity = ⟨0, 0, 0⟩ := by
    show (⟨-0.096 + 0.1 * (0.016 * 60), 0 + 0 * (0.016 * 60), 0 + 0 * (0.016 * 60)⟩ : Vec3) = _
    norm_num
  have hin : ¬ ((1 : ℝ) - M6.radius * 1 - 0.01 <
      Vec3.len ⟨(integratePos (0.016 * 60) M6.position M6.velocity).x * 1,
        (integratePos (0.016 * 60) M6.position M6.velocity).y * 1,
        (integratePos (0.016 * 60) M6.position M6.velocity).z * 1⟩) := by
    rw [hip]
    show ¬ ((1 : ℝ) - 0.1 * 1 - 0.01 < Vec3.len ⟨0 * 1, 0 * 1, 0 * 1⟩)
    norm_num [lenX]
  rw [integrate_inside 1 0.016 M6 rs 0 M6 0 (run6_norm rs 0) hin, hip]
  rfl

lemma run6_center : Vec3.len ⟨M6z.position.x * 1, M6z.position.y * 1, M6z.position.z * 1⟩
    = 0 := by
  show Vec3.len ⟨0 * 1, 0 * 1, 0 * 1⟩ = 0
  norm_num [lenX]

lemma run6_cz : constrainMentalPosition 1 M6z rsZero 0 = (M6z, 3) := by
  rw [constrain_center 1 M6z rsZero 0 run6_center]
  norm_num [rsZero, M6z]

lemma run6_ch : constrainMentalPosition 1 M6z rsHalf 0 = (M6h, 3) := by
  rw [constrain_center 1 M6z rsHalf 0 run6_center]
  have hθ : rsHalf 1 * Real.pi * 2 = Real.pi := by
    rw [show rsHalf 1 = 1 / 2 from rfl]
    ring
  have hφ : Real.arccos (rsHalf 2 * 2 - 1) = Real.pi / 2 := by
    rw [show rsHalf 2 * 2 - 1 = 0 from by norm_num [rsHalf]]
    exact Real.arccos_zero
  rw [hθ, hφ]
  norm_num [Real.sin_pi, Real.cos_pi, Real.sin_pi_div_two, Real.cos_pi_div_two,
    rsHalf, M6z, M6h, max_def]

lemma run6_nz (rs : RandStream) (k : ℕ) :
    normalizeVelocityToMotionSpeed M6z rs k = (M6z, k) := by
  apply normalize_id
  · show Vec3.len ⟨0.1, 0, 0⟩ = M6z.motionSpeed
    norm_num [lenX, abs_of_nonneg, M6z]
  · norm_num [M6z]

lemma run6_nh (rs : RandStream) (k : ℕ) :
    normalizeVelocityToMotionSpeed M6h rs k = (M6h, k) := by
  apply normalize_id
  · show Vec3.len ⟨0.1, 0, 0⟩ = M6h.motionSpeed
    norm_num [lenX, abs_of_nonneg, M6h]
  · norm_num [M6h]

lemma run6_z : updatePhysics 1 0.016 [M6] rsZero 0 = ([M6z], 3) := by
  rw [updatePhysics_one]
  simp only [run6_int rsZero, run6_cz, run6_nz]

lemma run6_h : updatePhysics 1 0.016 [M6] rsHalf 0 = ([M6h], 3) := by
  rw [updatePhysics_one]
  simp only [run6_int rsHalf, run6_ch, run6_nh]

/-- Counterexample to C6 as stated: two runs from the identical initial
state `M6`, the same `dt` and the same iteration order, differing only in
the `Math.random` stream, produce different trajectories even though no
velocity is ever zero (the speed stays `0.1` throughout, so the
speed-invariant re-seeding never fires): the divergence comes from
`constrainMentalPosition`'s random re-placement of a body at the exact
center — a second source of randomness beyond the claimed one. -/
theorem C6_counterexample :
    (updatePhysics 1 0.016 [M6] rsZero 0).1 = [M6z] ∧
    (updatePhysics 1 0.016 [M6] rsHalf 0).1 = [M6h] ∧
    (updatePhysics 1 0.016 [M6] rsZero 0).1 ≠ (updatePhysics 1 0.016 [M6] rsHalf 0).1 ∧
    M6z.velocity = ⟨0.1, 0, 0⟩ ∧ M6h.velocity = ⟨0.1, 0, 0⟩ ∧
    Vec3.len M6.velocity ≠ 0 := by
  refine ⟨by rw [run6_z], by rw [run6_h], ?_, rfl, rfl, ?_⟩
  · rw [run6_z, run6_h]
    norm_num [M6z, M6h]
  · show Vec3.len ⟨0.1, 0, 0⟩ ≠ 0
    norm_num [lenX, abs_of_nonneg]

/-! ## Claim C8 -/

/-- C8 (amended): the demo's per-ball speed rules hold at the *clamp
phase* (the start of each ball's update): a speed above `maxSpeed` is
rescaled to exactly `maxSpeed`; a speed below `minSpeed` is replaced by a
random direction scaled to `minSpeed`; and the post-clamp speed always
lies in `[minSpeed, maxSpeed]` (provided the random draw is not the zero
vector).  The bound does *not* survive to the end of the step — wall
nudges and pairwise impulses later in the same step can leave the speed
outside the band (see the counterexample). -/
theorem C8_clamped_speed :
    (∀ (vel : Vec3) (rs : RandStream) (k : ℕ),
      demoMaxSpeed < Vec3.len vel →
      (demoClampSpeed vel rs k).1 = Vec3.smul (demoMaxSpeed / Vec3.len vel) vel ∧
      Vec3.len (demoClampSpeed vel rs k).1 = demoMaxSpeed) ∧
    (∀ (vel : Vec3) (rs : RandStream) (k : ℕ),
      Vec3.len vel < demoMinSpeed →
      (demoClampSpeed vel rs k).1 =
        Vec3.smul demoMinSpeed
          (threeNormalize ⟨rs k * 2 - 1, rs (k + 1) * 2 - 1, rs (k + 2) * 2 - 1⟩)) ∧
    (∀ (vel : Vec3) (rs : RandStream) (k : ℕ),
      (Vec3.len vel < demoMinSpeed →
        (⟨rs k * 2 - 1, rs (k + 1) * 2 - 1, rs (k + 2) * 2 - 1⟩ : Vec3) ≠ ⟨0, 0, 0⟩) →
      demoMinSpeed ≤ Vec3.len (demoClampSpeed vel rs k).1 ∧
      Vec3.len (demoClampSpeed vel rs k).1 ≤ demoMaxSpeed) := by
  have hmax0 : (0 : ℝ) < demoMaxSpeed := by norm_num [demoMaxSpeed]
  have hhigh : ∀ (vel : Vec3) (rs : RandStream) (k : ℕ), demoMaxSpeed < Vec3.len vel →
      Vec3.len (demoClampSpeed vel rs k).1 = demoMaxSpeed := by
    intro vel rs k h1
    rw [demoClamp_high vel rs k h1, len_smul,
      abs_of_nonneg (div_nonneg hmax0.le (len_nonneg vel)),
      div_mul_cancel₀ _ (ne_of_gt (lt_trans hmax0 h1))]
  refine ⟨fun vel rs k h1 => ⟨demoClamp_high vel rs k h1 ▸ rfl, hhigh vel rs k h1⟩,
    fun vel rs k h2 => demoClamp_low vel rs k h2 ▸ rfl, ?_⟩
  intro vel rs k hseed
  rcases lt_or_le (Vec3.len vel) demoMinSpeed with h2 | h2
  · have htmp : (⟨rs k * 2 - 1, rs (k + 1) * 2 - 1, rs (k + 2) * 2 - 1⟩ : Vec3) ≠ ⟨0, 0, 0⟩ :=
      hseed h2
    have hlen1 : Vec3.len (threeNormalize
        ⟨rs k * 2 - 1, rs (k + 1) * 2 - 1, rs (k + 2) * 2 - 1⟩) = 1 :=
      threeNormalize_len _ (fun h => htmp (len_eq_zero h))
    rw [demoClamp_low vel rs k h2, len_smul, hlen1, mul_one,
      abs_of_nonneg (by norm_num [demoMinSpeed])]
    norm_num [demoMinSpeed, demoMaxSpeed]
  · rcases lt_or_le demoMaxSpeed (Vec3.len vel) with h1 | h1
    · rw [hhigh vel rs k h1]
      norm_num [demoMinSpeed, demoMaxSpeed]
    · rw [demoClamp_mid vel rs k (not_lt.mpr h1) (not_lt.mpr h2)]
      exact ⟨h2, h1⟩

/-- Witness for C8 (amended) at concrete velocities. -/
theorem C8_witness :
    ((demoClampSpeed ⟨0, 2.4, 0⟩ rsHalf 0).1 =
        Vec3.smul (demoMaxSpeed / Vec3.len ⟨0, 2.4, 0⟩) ⟨0, 2.4, 0⟩ ∧
      Vec3.len (demoClampSpeed ⟨0, 2.4, 0⟩ rsHalf 0).1 = demoMaxSpeed) ∧
    ((demoClampSpeed ⟨0.1, 0, 0⟩ rsZero 0).1 =
      Vec3.smul demoMinSpeed
        (threeNormalize ⟨rsZero 0 * 2 - 1, rsZero 1 * 2 - 1, rsZero 2 * 2 - 1⟩)) ∧
    (demoMinSpeed ≤ Vec3.len (demoClampSpeed ⟨0.1, 0, 0⟩ rsZero 0).1 ∧
      Vec3.len (demoClampSpeed ⟨0.1, 0, 0⟩ rsZero 0).1 ≤ demoMaxSpeed) :=
  ⟨C8_clamped_speed.1 ⟨0, 2.4, 0⟩ rsHalf 0
      (by rw [lenY]; norm_num [demoMaxSpeed, abs_of_nonneg]),
   C8_clamped_speed.2.1 ⟨0.1, 0, 0⟩ rsZero 0
      (by rw [lenX]; norm_num [demoMinSpeed, abs_of_nonneg]),
   C8_clamped_speed.2.2 ⟨0.1, 0, 0⟩ rsZero 0
      (fun _ => by norm_num [rsZero])⟩

/-- Ball moving tangentially at exactly `maxSpeed`. -/
noncomputable def B8a : Ball := ⟨⟨0, 0, 0⟩, ⟨0, 1.2, 0⟩⟩

/-- Ball moving at exactly `maxSpeed` toward the first. -/
noncomputable def B8b : Ball := ⟨⟨0.1, 0.0192, 0⟩, ⟨-1.2, 0, 0⟩⟩

/-- `B8a` after the integration phase. -/
noncomputable def B8ai : Ball := ⟨⟨0, 0.0192, 0⟩, ⟨0, 1.2, 0⟩⟩

/-- `B8b` after the integration phase. -/
noncomputable def B8bi : Ball := ⟨⟨0.0808, 0.0192, 0⟩, ⟨-1.2, 0, 0⟩⟩

/-- `B8a` after the pair collision (speed `1.2√2 > maxSpeed`). -/
noncomputable def B8af : Ball := ⟨⟨-0.0196, 0.0192, 0⟩, ⟨-1.2, 1.2, 0⟩⟩

/-- `B8b` after the pair collision (speed `0 < minSpeed`). -/
noncomputable def B8bf : Ball := ⟨⟨0.1004, 0.0192, 0⟩, ⟨0, 0, 0⟩⟩

lemma run8_clampa : demoClampSpeed B8a.vel rsHalf 0 = (B8a.vel, 0) := by
  apply demoClamp_mid
  · show ¬ demoMaxSpeed < Vec3.len ⟨0, 1.2, 0⟩
    rw [lenY]
    norm_num [demoMaxSpeed, abs_of_nonneg]
  · show ¬ Vec3.len ⟨0, 1.2, 0⟩ < demoMinSpeed
    rw [lenY]
    norm_num [demoMinSpeed, abs_of_nonneg]

lemma run8_clampb : demoClampSpeed B8b.vel rsHalf 0 = (B8b.vel, 0) := by
  apply demoClamp_mid
  · show ¬ demoMaxSpeed < Vec3.len ⟨-1.2, 0, 0⟩
    rw [lenX]
    norm_num [demoMaxSpeed, abs_of_nonpos]
  · show ¬ Vec3.len ⟨-1.2, 0, 0⟩ < demoMinSpeed
    rw [lenX]
    norm_num [demoMinSpeed, abs_of_nonpos]

lemma run8_balla : demoBallUpdate 0.016 B8a rsHalf 0 = (B8ai, 0) := by
  have hadd : Vec3.add B8a.pos (Vec3.smul 0.016 B8a.vel) = ⟨0, 0.0192, 0⟩ := by
    norm_num [Vec3.add, Vec3.smul, B8a]
  rw [demoBall_noWall 0.016 B8a rsHalf 0 B8a.vel 0 run8_clampa
    (by
      rw [hadd]
      show ¬ (demoContainerRadius - demoBallRadius < Vec3.len ⟨0, 0.0192, 0⟩)
      rw [lenY]
      norm_num [demoContainerRadius, demoBallRadius, abs_of_nonneg]), hadd]
  rfl

lemma run8_ballb : demoBallUpdate 0.016 B8b rsHalf 0 = (B8bi, 0) := by
  have hadd : Vec3.add B8b.pos (Vec3.smul 0.016 B8b.vel) = ⟨0.0808, 0.0192, 0⟩ := by
    norm_num [Vec3.add, Vec3.smul, B8b]
  rw [demoBall_noWall 0.016 B8b rsHalf 0 B8b.vel 0 run8_clampb
    (by
      rw [hadd]
      show ¬ (demoContainerRadius - demoBallRadius < Vec3.len ⟨0.0808, 0.0192, 0⟩)
      have hle : Vec3.len ⟨(0.0808 : ℝ), 0.0192, 0⟩ ≤ 0.84 :=
        lenLe 0.0808 0.0192 0 0.84 (by norm_num) (by norm_num)
      rw [show demoContainerRadius - demoBallRadius = (0.84 : ℝ) from by
        norm_num [demoContainerRadius, demoBallRadius]]
      exact not_lt.mpr hle), hadd]
  rfl

lemma run8_delta : Vec3.sub B8bi.pos B8ai.pos = ⟨0.0808, 0, 0⟩ := by
  norm_num [Vec3.sub, B8ai, B8bi]

lemma run8_dlen : Vec3.len (Vec3.sub B8bi.pos B8ai.pos) = 0.0808 := by
  rw [run8_delta]
  norm_num [lenX, abs_of_nonneg]

lemma run8_pair : demoPairCollide B8ai B8bi = (B8af, B8bf) := by
  rw [demoPair_imp B8ai B8bi
    (by rw [run8_dlen]; norm_num)
    (by rw [run8_dlen]; norm_num [demoBallRadius])
    (by
      rw [run8_dlen, run8_delta]
      norm_num [Vec3.dot, Vec3.sub, Vec3.smul, B8ai, B8bi])]
  simp only [run8_dlen, run8_delta]
  norm_num [Vec3.dot, Vec3.sub, Vec3.add, Vec3.smul, demoRestitution, demoBallRadius,
    lenX, abs_of_nonneg, B8ai, B8bi, B8af, B8bf]

lemma run8 : demoStep 0.016 [B8a, B8b] rsHalf 0 = ([B8af, B8bf], 0) := by
  rw [demoStep_two]
  rw [show min (0.016 : ℝ) 0.033 = 0.016 from by norm_num]
  simp only [run8_balla, run8_ballb, run8_pair]

/-- Counterexample to C8 as stated: both balls of the concrete pair start
the step with speed exactly `maxSpeed = 1.2` (inside the band), but after
the completed `demoStep` the second ball's velocity is `(0,0,0)` — below
`minSpeed = 0.22` — because the pairwise impulse runs *after* the
per-ball speed clamp and nothing re-checks the band at the end of the
step. -/
theorem C8_counterexample :
    (demoStep 0.016 [B8a, B8b] rsHalf 0).1 = [B8af, B8bf] ∧
    Vec3.len B8bf.vel = 0 ∧
    ¬ (demoMinSpeed ≤ Vec3.len B8bf.vel) ∧
    demoMinSpeed ≤ Vec3.len B8a.vel ∧ Vec3.len B8a.vel ≤ demoMaxSpeed ∧
    demoMinSpeed ≤ Vec3.len B8b.vel ∧ Vec3.len B8b.vel ≤ demoMaxSpeed := by
  have hza : Vec3.len B8a.vel = 1.2 := by
    show Vec3.len ⟨0, 1.2, 0⟩ = 1.2
    rw [lenY]
    norm_num [abs_of_nonneg]
  have hzb : Vec3.len B8b.vel = 1.2 := by
    show Vec3.len ⟨-1.2, 0, 0⟩ = 1.2
    rw [lenX]
    norm_num [abs_of_nonpos]
  have hzf : Vec3.len B8bf.vel = 0 := by
    show Vec3.len ⟨0, 0, 0⟩ = 0
    exact len_zero
  refine ⟨by rw [run8], hzf, ?_, ?_, ?_, ?_, ?_⟩
  · rw [hzf]
    norm_num [demoMinSpeed]
  · rw [hza]
    norm_num [demoMinSpeed]
  · rw [hza]
    norm_num [demoMaxSpeed]
  · rw [hzb]
    norm_num [demoMinSpeed]
  · rw [hzb]
    norm_num [demoMaxSpeed]
